import Mathlib

set_option maxHeartbeats 1000000

/-!
Verification of the execution-trace witnessing subsystem ("footprint recorder")
of the Move VM fork: the value flattener and its sub-index paths
(`witnessing/traced_value.rs`), the pointer index `FootprintState` and the
per-instruction recorder `footprinting` (`interpreter/footprint.rs`), and the
opcode/auxiliary-immediate encoder `serialize_instruction`.

Machine integers are modelled as `Nat` (with explicit `% 2^w` where the source
relies on wrapping or splitting); `BTreeMap`s are modelled as functions to
`Option`; fallible Rust code returns `Except`; a Rust `panic!`/`unimplemented!`
is a distinguished error constructor so that it can be told apart from an error
returned through the `PartialVMResult` channel.
-/

namespace Witnessing

/-- `MAX_SUB_INDEX_DEPTH` in `traced_value.rs`: a `SubIndex` is an 8-slot array. -/
def MAX_SUB_INDEX_DEPTH : Nat := 8

/-- The trailing-zero-stripping loop used by `SubIndex::concat`
(`while this.last() == Some(&0) { this.pop(); }`). -/
def trimTrailingZeros : List Nat → List Nat
  | [] => []
  | x :: xs =>
    match trimTrailingZeros xs with
    | [] => if x = 0 then [] else [x]
    | y :: ys => x :: y :: ys

/-- `SubIndex::depth`: index of the last non-zero slot plus one, `0` when every
slot is zero (`rposition(|&x| x != 0).map_or(0, |pos| pos + 1)`). -/
def subDepth : List Nat → Nat
  | [] => 0
  | x :: xs =>
    let d := subDepth xs
    if d = 0 then (if x = 0 then 0 else 1) else d + 1

/-- `From<Vec<usize>> for SubIndex`: write the entries into an 8-slot array,
remaining slots zero.  (The source asserts the input length is at most 8; the
model truncates, and every use below stays within the bound.) -/
def toSubIndex (l : List Nat) : List Nat :=
  l.take MAX_SUB_INDEX_DEPTH ++ List.replicate (MAX_SUB_INDEX_DEPTH - l.length) 0

/-- `SubIndex::concat`: strip the trailing zeros of `self`, append `other`,
and keep the first 8 slots (the result array is zero-initialised). -/
def subConcat (a b : List Nat) : List Nat :=
  (trimTrailingZeros a ++ b).take MAX_SUB_INDEX_DEPTH ++
    List.replicate
      (MAX_SUB_INDEX_DEPTH - ((trimTrailingZeros a ++ b).take MAX_SUB_INDEX_DEPTH).length) 0

/-- `Reference` in `witnessing/traced_value.rs`: the stable coordinate of a
container, `{ frame_index, local_index, sub_index }`; `sub_index` is the 8-slot
array (stored here as the padded list produced by `toSubIndex`). -/
structure Reference where
  frame_index : Nat
  local_index : Nat
  sub_index : List Nat
deriving DecidableEq, Repr

/-- `SimpleValue` in `witnessing/traced_value.rs`. -/
inductive SimpleValue where
  | u8 (v : Nat)
  | u16 (v : Nat)
  | u32 (v : Nat)
  | u64 (v : Nat)
  | u128 (v : Nat)
  | u256 (v : Nat)
  | boolean (b : Bool)
  | address (a : Nat)
  | reference (r : Reference)
deriving DecidableEq, Repr

/-- `Integer` in `witnessing/traced_value.rs`: the integer-only subset. -/
inductive Integer where
  | u8 (v : Nat)
  | u16 (v : Nat)
  | u32 (v : Nat)
  | u64 (v : Nat)
  | u128 (v : Nat)
  | u256 (v : Nat)
deriving DecidableEq, Repr

/-- `ValueItem`: one emitted atom of the flattened stream. -/
structure ValueItem where
  sub_index : List Nat
  header : Bool
  value : SimpleValue
deriving DecidableEq, Repr

/-- Runtime values as seen by the flattening visitor: integer/bool/address
leaves, containers (struct or vector, each carrying its raw container
address), and reference values (to a whole container, or to an indexed
vector element). -/
inductive RValue where
  | u8 (v : Nat)
  | u16 (v : Nat)
  | u32 (v : Nat)
  | u64 (v : Nat)
  | u128 (v : Nat)
  | u256 (v : Nat)
  | boolean (b : Bool)
  | address (a : Nat)
  | structV (addr : Nat) (fields : List RValue)
  | vecV (addr : Nat) (elems : List RValue)
  | refV (addr : Nat)
  | refIndexed (addr : Nat) (idx : Nat)

mutual

/-- Number of visitor callbacks a value will trigger; used as traversal fuel. -/
def rvFuel : RValue → Nat
  | .structV _ fields => 1 + rvFuelList fields
  | .vecV _ elems => 1 + rvFuelList elems
  | _ => 1

def rvFuelList : List RValue → Nat
  | [] => 0
  | v :: vs => rvFuel v + rvFuelList vs

end

/-- `FrameState` in `witnessing/traced_value.rs`: one level of the visit stack. -/
structure LevelFrame where
  depth : Nat
  len : Nat
  counter : Nat
deriving DecidableEq, Repr

/-- The mutable visitor state of `TracedValue` (visit stack, emitted items,
and the container-address → sub-path map, kept as an insertion-ordered list).
The head of `visit_stack` is the innermost (most recently pushed) level. -/
structure TracedAcc where
  visit_stack : List LevelFrame
  items : List ValueItem
  container_sub_indexes : List (Nat × List Nat)
deriving DecidableEq, Repr

/-- `TracedValue::current_sub_index`: the counters along the visit stack,
outermost first. -/
def currentSubIndex (st : List LevelFrame) : List Nat :=
  (st.map (fun fr => fr.counter)).reverse

/-- The "trace-up to the top un-finished frame" loop of
`TracedValue::visit_simple`: pop every completed level (`counter == len`). -/
def popDone : List LevelFrame → List LevelFrame
  | [] => []
  | fr :: rest => if fr.counter = fr.len then popDone rest else fr :: rest

/-- `TracedValue::visit_simple`: bump the innermost counter (asserting the
depth relation, modelled as `none` on violation), emit a non-header item at
the current path (`[0]` at the root), then run the completion cascade. -/
def visitSimple (acc : TracedAcc) (depth : Nat) (v : SimpleValue) : Option TracedAcc :=
  match acc.visit_stack with
  | [] =>
    if depth = 0 then
      some { acc with items := acc.items ++ [⟨toSubIndex [0], false, v⟩] }
    else none
  | fr :: rest =>
    if fr.depth + 1 = depth then
      some { acc with
        visit_stack := popDone ({ fr with counter := fr.counter + 1 } :: rest),
        items := acc.items ++
          [⟨toSubIndex (currentSubIndex ({ fr with counter := fr.counter + 1 } :: rest)),
            false, v⟩] }
    else none

/-- Modelled from the spec: the visitor dispatch (`ValueView`/`views.rs`) that
drives `TracedValue` is not under `src/`.  Per §4.1 a container crossing
increments the parent counter once, records
`container_sub_indexes[addr] = current_path ++ [0]` (`visit_container`),
pushes a level `{depth, len, counter := 0}` and emits a `U64(len)` header at
the same path (`visit_struct`/`visit_vec`); the completion cascade also runs
here so that zero-length containers complete. -/
def enterContainer (acc : TracedAcc) (addr depth len : Nat) : Option TracedAcc :=
  match acc.visit_stack with
  | [] =>
    if depth = 0 then
      some { visit_stack := popDone [⟨0, len, 0⟩],
             items := acc.items ++ [⟨toSubIndex [0], true, SimpleValue.u64 len⟩],
             container_sub_indexes := acc.container_sub_indexes ++ [(addr, [0])] }
    else none
  | fr :: rest =>
    if fr.depth + 1 = depth then
      some { visit_stack :=
               popDone (⟨depth, len, 0⟩ :: { fr with counter := fr.counter + 1 } :: rest),
             items := acc.items ++
               [⟨toSubIndex (currentSubIndex ({ fr with counter := fr.counter + 1 } :: rest)
                   ++ [0]), true, SimpleValue.u64 len⟩],
             container_sub_indexes := acc.container_sub_indexes ++
               [(addr, currentSubIndex ({ fr with counter := fr.counter + 1 } :: rest) ++ [0])] }
    else none

/-- Depth-first traversal of a runtime value through the visitor callbacks,
as an explicit worklist of `(value, depth)` pairs with a fuel argument
(`flattenValue` supplies enough fuel for any input it is applied to; running
out of fuel yields `none`, as does any assertion failure or a reference that
cannot be resolved through the reverse map — the panic paths of the source). -/
def visitWorkF (rev : Nat → Option Reference) :
    Nat → List (RValue × Nat) → TracedAcc → Option TracedAcc
  | _, [], acc => some acc
  | 0, _ :: _, _ => none
  | fuel + 1, (v, depth) :: rest, acc =>
    match v with
    | .u8 n => (visitSimple acc depth (.u8 n)).bind (visitWorkF rev fuel rest)
    | .u16 n => (visitSimple acc depth (.u16 n)).bind (visitWorkF rev fuel rest)
    | .u32 n => (visitSimple acc depth (.u32 n)).bind (visitWorkF rev fuel rest)
    | .u64 n => (visitSimple acc depth (.u64 n)).bind (visitWorkF rev fuel rest)
    | .u128 n => (visitSimple acc depth (.u128 n)).bind (visitWorkF rev fuel rest)
    | .u256 n => (visitSimple acc depth (.u256 n)).bind (visitWorkF rev fuel rest)
    | .boolean b => (visitSimple acc depth (.boolean b)).bind (visitWorkF rev fuel rest)
    | .address a => (visitSimple acc depth (.address a)).bind (visitWorkF rev fuel rest)
    | .structV a fields =>
      (enterContainer acc a depth fields.length).bind
        (visitWorkF rev fuel ((fields.map (fun f => (f, depth + 1))) ++ rest))
    | .vecV a elems =>
      (enterContainer acc a depth elems.length).bind
        (visitWorkF rev fuel ((elems.map (fun e => (e, depth + 1))) ++ rest))
    | .refV a =>
      match rev a with
      | some r => (visitSimple acc depth (.reference r)).bind (visitWorkF rev fuel rest)
      | none => none
    | .refIndexed _ _ => none

/-- `b` lies strictly under `a`: `a` is a strict prefix of `b`. -/
def strictUnder (a b : List Nat) : Bool :=
  a.isPrefixOf b && !(a == b)

/-- The subtree-item count used by header finalization: the number of items
whose trimmed sub-index has the header's trimmed sub-index as a strict
prefix; for the root placeholder (empty trimmed path) the total item count. -/
def subtreeCount (items : List ValueItem) (h : List Nat) : Nat :=
  if trimTrailingZeros h = [] then items.length
  else items.countP (fun x => strictUnder (trimTrailingZeros h) (trimTrailingZeros x.sub_index))

/-- Rewrite one header item from `U64(len)` to
`U256((len << 128) | subtree_item_count)`; other items are untouched. -/
def finalizeItem (items : List ValueItem) : ValueItem → ValueItem
  | ⟨si, true, .u64 n⟩ => ⟨si, true, .u256 (n * 2 ^ 128 + subtreeCount items si)⟩
  | other => other

/-- Modelled from the spec: the finalization pass of `TracedValueBuilder`
(not under `src/`) — walk `items` and rewrite every header's value from
`U64(len)` to `U256((len << 128) | subtree_item_count)` (§4.1). -/
def finalize (items : List ValueItem) : List ValueItem :=
  items.map (finalizeItem items)

/-- `TracedValue` as returned to callers: the finalized item stream and the
container-address map. -/
structure TracedValue where
  items : List ValueItem
  container_sub_indexes : List (Nat × List Nat)
deriving DecidableEq, Repr

def emptyAcc : TracedAcc := ⟨[], [], []⟩

/-- Modelled from the spec: `TracedValueBuilder::build` (not under `src/`) —
drive the visitor over the value, check the visit stack unwound (the
`items()` assertion), and finalize the headers. -/
def flattenValue (rev : Nat → Option Reference) (v : RValue) : Option TracedValue :=
  (visitWorkF rev (rvFuel v + 1) [(v, 0)] emptyAcc).bind fun acc =>
    if acc.visit_stack.isEmpty then
      some ⟨finalize acc.items, acc.container_sub_indexes⟩
    else none

/-- The claim's (§8) subtree-count: the number of items whose trimmed
sub-index strictly starts with the header's trimmed sub-index; for the root
placeholder, the total number of items in the stream. -/
def specSubtreeCount (items : List ValueItem) (h : List Nat) : Nat :=
  if trimTrailingZeros h = [] then items.length
  else (items.filter (fun x => strictUnder (trimTrailingZeros h) (trimTrailingZeros x.sub_index))).length

/-- Lookup in the container-address map handed to `add_local` (a `BTreeMap`
in the source, so keys are unique; modelled as an association list with
first-match lookup). -/
def lookupAddr : List (Nat × List Nat) → Nat → Option (List Nat)
  | [], _ => none
  | kv :: rest, a => if kv.1 = a then some kv.2 else lookupAddr rest a

/-- `FootprintState` in `interpreter/footprint.rs`: the forward map
`frame_index → local_index → raw_address → sub_path` and the reverse map
`raw_address → Reference`, both modelled as functions to `Option`. -/
structure FootprintState where
  local_value_addressings : Nat → Nat → Nat → Option (List Nat)
  reverse_local_value_addressings : Nat → Option Reference

def FootprintState.empty : FootprintState :=
  ⟨fun _ _ _ => none, fun _ => none⟩

/-- `FootprintState::add_local`: install `sub_indexes` under
`(frame_index, local_index)` (overwriting the slot) and point every listed
raw address at `Reference(frame_index, local_index, sub_index)`. -/
def FootprintState.add_local (s : FootprintState) (frame_index local_index : Nat)
    (sub_indexes : List (Nat × List Nat)) : FootprintState :=
  { local_value_addressings := fun f l a =>
      if f = frame_index ∧ l = local_index then lookupAddr sub_indexes a
      else s.local_value_addressings f l a,
    reverse_local_value_addressings := fun a =>
      match lookupAddr sub_indexes a with
      | some p => some ⟨frame_index, local_index, toSubIndex p⟩
      | none => s.reverse_local_value_addressings a }

/-- `FootprintState::remove_local`: drop the slot from the forward map and
retain only reverse entries whose `(frame, local)` differs. -/
def FootprintState.remove_local (s : FootprintState) (frame_index local_index : Nat) :
    FootprintState :=
  { local_value_addressings := fun f l a =>
      if f = frame_index ∧ l = local_index then none else s.local_value_addressings f l a,
    reverse_local_value_addressings := fun a =>
      match s.reverse_local_value_addressings a with
      | some r =>
        if r.frame_index = frame_index ∧ r.local_index = local_index then none else some r
      | none => none }

/-- `FootprintState::remove_locals`: purge an entire frame from both maps. -/
def FootprintState.remove_locals (s : FootprintState) (frame_index : Nat) : FootprintState :=
  { local_value_addressings := fun f l a =>
      if f = frame_index then none else s.local_value_addressings f l a,
    reverse_local_value_addressings := fun a =>
      match s.reverse_local_value_addressings a with
      | some r => if r.frame_index = frame_index then none else some r
      | none => none }

/-- One pointer-index operation (the three mutators of `FootprintState`). -/
inductive FootprintOp where
  | addLocal (frame_index local_index : Nat) (sub_indexes : List (Nat × List Nat))
  | removeLocal (frame_index local_index : Nat)
  | removeLocals (frame_index : Nat)

def applyOp (s : FootprintState) : FootprintOp → FootprintState
  | .addLocal f l m => s.add_local f l m
  | .removeLocal f l => s.remove_local f l
  | .removeLocals f => s.remove_locals f

def applyOps (s : FootprintState) (ops : List FootprintOp) : FootprintState :=
  ops.foldl applyOp s

/-- Reverse-consistency of the pointer index: a reverse entry for `a` points
at a forward entry holding `a` with the same path, and conversely every
forward entry for `a` is what the reverse map reports. -/
def ReverseConsistent (s : FootprintState) : Prop :=
  ∀ a,
    (∀ r, s.reverse_local_value_addressings a = some r →
      ∃ p, s.local_value_addressings r.frame_index r.local_index a = some p ∧
        r.sub_index = toSubIndex p) ∧
    (∀ f l p, s.local_value_addressings f l a = some p →
      s.reverse_local_value_addressings a = some ⟨f, l, toSubIndex p⟩)

/-- Precondition under which `add_local` preserves reverse-consistency: the
target slot is empty (as after `remove_local` of the same slot) and none of
the installed addresses is currently owned by any slot (the source relies on
a freshly stored value having reference count one). -/
def AddLocalOk (s : FootprintState) (frame_index local_index : Nat)
    (m : List (Nat × List Nat)) : Prop :=
  (∀ a, s.local_value_addressings frame_index local_index a = none) ∧
  (∀ kv ∈ m, ∀ f l, s.local_value_addressings f l kv.1 = none)

/-- A sequence of pointer-index operations whose `addLocal`s all satisfy
`AddLocalOk` at the state they are applied to. -/
def GoodFrom (s : FootprintState) : List FootprintOp → Prop
  | [] => True
  | op :: ops =>
    (match op with
     | .addLocal f l m => AddLocalOk s f l m
     | _ => True) ∧ GoodFrom (applyOp s op) ops

/-- The state update performed by the recorder's `StLoc` arm:
`remove_local(frame, idx)` then `add_local(frame, idx, container map of the
flattened stored value)`. -/
def stLocUpdate (s : FootprintState) (frame_index local_index : Nat)
    (m : List (Nat × List Nat)) : FootprintState :=
  (s.remove_local frame_index local_index).add_local frame_index local_index m

/-- Error channel of the embedded recorder: `vmError` is a `PartialVMError`
returned through the `PartialVMResult` channel (the `?` operator), while
`panicked` is a Rust panic (`unwrap`, `expect`, `unimplemented!`, arithmetic
underflow), which does not travel through the `Result` channel. -/
inductive RErr where
  | vmError
  | panicked (msg : String)
deriving DecidableEq, Repr

abbrev RecM (α : Type) := Except RErr α

/-- The opcode enumeration (`Opcodes` in `file_format_common.rs`; the numeric
byte values live outside `src/`, so the enumeration is kept abstract). -/
inductive Opcodes where
  | FREEZE_REF | POP | RET | BR_TRUE | BR_FALSE | BRANCH
  | LD_U8 | LD_U16 | LD_U32 | LD_U64 | LD_U128 | LD_U256
  | CAST_U8 | CAST_U16 | CAST_U32 | CAST_U64 | CAST_U128 | CAST_U256
  | LD_CONST | LD_TRUE | LD_FALSE
  | COPY_LOC | MOVE_LOC | ST_LOC
  | MUT_BORROW_LOC | IMM_BORROW_LOC
  | MUT_BORROW_FIELD | MUT_BORROW_FIELD_GENERIC
  | IMM_BORROW_FIELD | IMM_BORROW_FIELD_GENERIC
  | CALL | CALL_GENERIC | PACK | PACK_GENERIC | UNPACK | UNPACK_GENERIC
  | READ_REF | WRITE_REF
  | ADD | SUB | MUL | MOD | DIV | BIT_OR | BIT_AND | XOR | SHL | SHR
  | OR | AND | NOT | EQ | NEQ | LT | GT | LE | GE
  | ABORT | NOP
  | EXISTS | MUT_BORROW_GLOBAL | IMM_BORROW_GLOBAL | MOVE_FROM | MOVE_TO
  | EXISTS_GENERIC | MUT_BORROW_GLOBAL_GENERIC | IMM_BORROW_GLOBAL_GENERIC
  | MOVE_FROM_GENERIC | MOVE_TO_GENERIC
  | VEC_PACK | VEC_LEN | VEC_IMM_BORROW | VEC_MUT_BORROW
  | VEC_PUSH_BACK | VEC_POP_BACK | VEC_UNPACK | VEC_SWAP
deriving DecidableEq

/-- The bytecode instruction enumeration (immediates as `Nat`). -/
inductive Bytecode where
  | Pop
  | Ret
  | BrTrue (offset : Nat)
  | BrFalse (offset : Nat)
  | Branch (offset : Nat)
  | LdU8 (v : Nat)
  | LdU16 (v : Nat)
  | LdU32 (v : Nat)
  | LdU64 (v : Nat)
  | LdU128 (v : Nat)
  | LdU256 (v : Nat)
  | LdTrue
  | LdFalse
  | LdConst (idx : Nat)
  | CastU8
  | CastU16
  | CastU32
  | CastU64
  | CastU128
  | CastU256
  | CopyLoc (idx : Nat)
  | MoveLoc (idx : Nat)
  | StLoc (idx : Nat)
  | Call (fh_idx : Nat)
  | CallGeneric (fh_idx : Nat)
  | Pack (sd_idx : Nat)
  | PackGeneric (si_idx : Nat)
  | Unpack (sd_idx : Nat)
  | UnpackGeneric (sd_idx : Nat)
  | ReadRef
  | WriteRef
  | FreezeRef
  | MutBorrowLoc (idx : Nat)
  | ImmBorrowLoc (idx : Nat)
  | MutBorrowField (fh_idx : Nat)
  | MutBorrowFieldGeneric (fi_idx : Nat)
  | ImmBorrowField (fh_idx : Nat)
  | ImmBorrowFieldGeneric (fi_idx : Nat)
  | Add | Sub | Mul | Mod | Div | BitOr | BitAnd | Xor | Lt | Gt | Le | Ge
  | Or | And | Not | Eq | Neq
  | Abort
  | Nop
  | Shl | Shr
  | VecPack (si : Nat) (num : Nat)
  | VecUnpack (si : Nat) (num : Nat)
  | VecLen (si : Nat)
  | VecImmBorrow (si : Nat)
  | VecMutBorrow (si : Nat)
  | VecPushBack (si : Nat)
  | VecPopBack (si : Nat)
  | VecSwap (si : Nat)
  | MutBorrowGlobal (c : Nat)
  | MutBorrowGlobalGeneric (c : Nat)
  | Exists (c : Nat)
  | ExistsGeneric (c : Nat)
  | MoveFrom (c : Nat)
  | MoveFromGeneric (c : Nat)
  | MoveTo (c : Nat)
  | MoveToGeneric (c : Nat)
  | ImmBorrowGlobal (c : Nat)
  | ImmBorrowGlobalGeneric (c : Nat)

/-- `BinaryIntegerOperationType` in `witnessing/mod.rs`. -/
inductive BinaryIntegerOperationType where
  | Add | Sub | Mul | Mod | Div | BitOr | BitAnd | Xor | Lt | Gt | Le | Ge
deriving DecidableEq

/-- `CallerInfo` in `witnessing/mod.rs`. -/
structure CallerInfo where
  frame_index : Nat
  module_id : Option Nat
  function_id : Nat
  pc : Nat
deriving DecidableEq

/-- `Operation` in `witnessing/mod.rs`: the typed payload of one record. -/
inductive Operation where
  | Start (entry_module : Option Nat) (entry_function : Nat) (args : List (List ValueItem))
  | Pop (poped_value : List ValueItem)
  | Ret (caller : Option CallerInfo)
  | BrTrue (cond_val : Bool) (code_offset : Nat)
  | BrFalse (cond_val : Bool) (code_offset : Nat)
  | Branch (offset : Nat)
  | LdSimple (v : Integer)
  | LdTrue
  | LdFalse
  | LdConst (const_pool_index : Nat)
  | CopyLoc (local_index : Nat) (loc : List ValueItem)
  | MoveLoc (local_index : Nat) (loc : List ValueItem)
  | StLoc (local_index : Nat) (old_local : Option (List ValueItem)) (new_value : List ValueItem)
  | Call (fh_idx : Nat) (args : List (List ValueItem))
  | CallGeneric (fh_idx : Nat) (args : List (List ValueItem))
  | Pack (sd_idx : Nat) (num : Nat) (args : List (List ValueItem))
  | PackGeneric (si_idx : Nat) (num : Nat) (args : List (List ValueItem))
  | Unpack (sd_idx : Nat) (num : Nat) (arg : List ValueItem)
  | UnpackGeneric (sd_idx : Nat) (num : Nat) (arg : List ValueItem)
  | ReadRef (reference : Reference) (value : List ValueItem)
  | WriteRef (reference : Reference) (old_value : List ValueItem) (new_value : List ValueItem)
  | FreezeRef
  | BinaryOp (ty : BinaryIntegerOperationType) (lhs : Integer) (rhs : Integer)
  | Or (lhs : Bool) (rhs : Bool)
  | And (lhs : Bool) (rhs : Bool)
  | Not (value : Bool)
  | Shl (rhs : Nat) (lhs : Integer)
  | Shr (rhs : Nat) (lhs : Integer)
  | Eq (lhs : List ValueItem) (rhs : List ValueItem)
  | Neq (lhs : List ValueItem) (rhs : List ValueItem)
  | Abort (error_code : Nat)
  | Nop
  | VecPack (si : Nat) (num : Nat) (args : List (List ValueItem))
  | VecUnpack (si : Nat) (num : Nat) (arg : List ValueItem)
  | VecLen (si : Nat) (vec_ref : Reference) (len : Nat)
  | VecBorrow (si : Nat) (imm : Bool) (idx : Nat) (vec_ref : Reference)
  | VecPushBack (si : Nat) (vec_len : Nat) (vec_ref : Reference) (elem : List ValueItem)
  | VecPopBack (si : Nat) (vec_len : Nat) (vec_ref : Reference) (elem : List ValueItem)
  | VecSwap (si : Nat) (vec_ref : Reference) (vec_len : Nat) (idx1 : Nat) (idx2 : Nat)
      (idx1_elem : List ValueItem) (idx2_elem : List ValueItem)
  | BorrowLoc (imm : Bool) (local_index : Nat)
  | BorrowField (imm : Bool) (fh_idx : Nat) (reference : Reference) (field_offset : Nat)
  | BorrowFieldGeneric (fi_idx : Nat) (imm : Bool) (reference : Reference) (field_offset : Nat)
  | CastU8 (origin : Integer)
  | CastU16 (origin : Integer)
  | CastU32 (origin : Integer)
  | CastU64 (origin : Integer)
  | CastU128 (origin : Integer)
  | CastU256 (origin : Integer)
deriving DecidableEq

/-- `Footprint` in `witnessing/mod.rs` (one trace record); `op` keeps the
`Opcodes` value whose byte the source stores. -/
structure Footprint where
  module_id : Option Nat
  function_id : Nat
  pc : Nat
  frame_index : Nat
  stack_pointer : Nat
  op : Opcodes
  aux0 : Option Nat
  aux1 : Option Nat
  data : Operation
deriving DecidableEq

/-- `Footprints` in `interpreter/footprint.rs`. -/
structure Footprints where
  state : FootprintState
  data : List Footprint

/-- The read-only interpreter context the per-instruction recorder consumes:
operand stack (head is the top), locals (`none` = invalid slot), a heap for
dereferencing container addresses, frame/function identification, and the
resolver's count/offset tables (modelled as total maps). -/
structure RecInput where
  operand_stack : List RValue
  locals : List (Option RValue)
  heap : Nat → Option RValue
  pc : Nat
  frame_index : Nat
  function_index : Nat
  module_id : Option Nat
  caller : Option CallerInfo
  param_count : Nat → Nat
  generic_param_count : Nat → Nat
  field_count : Nat → Nat
  field_instantiation_count : Nat → Nat
  field_offset : Nat → Nat
  field_instantiation_offset : Nat → Nat

/-- `Interpreter::operand_stack.last_n(k)`: the top `k` slots, bottom first,
or an error when the stack is too short. -/
def last_n (stack : List RValue) (k : Nat) : RecM (List RValue) :=
  if k ≤ stack.length then .ok ((stack.take k).reverse) else .error .vmError

/-- `.last().unwrap()` on the `last_n` result. -/
def lastOf (l : List RValue) : RecM RValue :=
  match l.getLast? with
  | some v => .ok v
  | none => .error (.panicked "unwrap")

/-- `.next().unwrap()` on the `last_n` result (its first element). -/
def firstOf (l : List RValue) : RecM RValue :=
  match l.head? with
  | some v => .ok v
  | none => .error (.panicked "unwrap")

def asBool : RValue → RecM Bool
  | .boolean b => .ok b
  | _ => .error .vmError

def asIntegerValue : RValue → RecM Integer
  | .u8 v => .ok (.u8 v)
  | .u16 v => .ok (.u16 v)
  | .u32 v => .ok (.u32 v)
  | .u64 v => .ok (.u64 v)
  | .u128 v => .ok (.u128 v)
  | .u256 v => .ok (.u256 v)
  | _ => .error .vmError

def asU64 : RValue → RecM Nat
  | .u64 v => .ok v
  | _ => .error .vmError

def asU8 : RValue → RecM Nat
  | .u8 v => .ok v
  | _ => .error .vmError

/-- `cast::<StructRef>()` followed by `raw_address()`. -/
def asStructRef : RValue → RecM Nat
  | .refV a => .ok a
  | _ => .error .vmError

/-- `value_as::<VectorRef>()`, yielding the raw container address. -/
def asVectorRef : RValue → RecM Nat
  | .refV a => .ok a
  | _ => .error .vmError

/-- `Reference::read_ref` through the heap. -/
def readRef (heap : Nat → Option RValue) : RValue → RecM RValue
  | .refV a =>
    match heap a with
    | some v => .ok v
    | none => .error .vmError
  | .refIndexed a i =>
    match heap a with
    | some (.vecV _ elems) =>
      match elems.get? i with
      | some e => .ok e
      | none => .error .vmError
    | _ => .error .vmError
  | _ => .error .vmError

/-- The element list behind a vector's raw address (`VectorRef::len` and
`borrow_elem` read it; the element type check is abstracted away). -/
def vecContents (heap : Nat → Option RValue) (a : Nat) : RecM (List RValue) :=
  match heap a with
  | some (.vecV _ elems) => .ok elems
  | _ => .error .vmError

/-- `Locals::copy_loc`. -/
def copyLoc (locals : List (Option RValue)) (i : Nat) : RecM RValue :=
  match locals.get? i with
  | some (some v) => .ok v
  | _ => .error .vmError

/-- `Locals::is_invalid`. -/
def isInvalid (locals : List (Option RValue)) (i : Nat) : RecM Bool :=
  match locals.get? i with
  | some o => .ok o.isNone
  | none => .error .vmError

/-- `TracedValueBuilder::new(v).build(reverse)` (builder body not under
`src/`; modelled from the spec as flatten-plus-finalize, §4.1/§9). -/
def buildTV (rev : Nat → Option Reference) (v : RValue) : RecM TracedValue :=
  match flattenValue rev v with
  | some tv => .ok tv
  | none => .error (.panicked "visitor invariant")

/-- `.build(reverse).items`. -/
def buildItems (rev : Nat → Option Reference) (v : RValue) : RecM (List ValueItem) :=
  match flattenValue rev v with
  | some tv => .ok tv.items
  | none => .error (.panicked "visitor invariant")

/-- `.build_as_plain_value().unwrap().items` (no reverse map available). -/
def buildPlainItems (v : RValue) : RecM (List ValueItem) :=
  match flattenValue (fun _ => none) v with
  | some tv => .ok tv.items
  | none => .error (.panicked "unwrap")

/-- `.build_as_reference(reverse).unwrap()` (builder body not under `src/`;
modelled from §4.2: extract the raw pointer via `ReferenceValueVisitor` and
resolve it through the reverse map; `unwrap` panics on a miss). -/
def buildReference (rev : Nat → Option Reference) : RValue → RecM Reference
  | .refV a =>
    match rev a with
    | some r => .ok r
    | none => .error (.panicked "unwrap")
  | .refIndexed a _ =>
    match rev a with
    | some r => .ok r
    | none => .error (.panicked "unwrap")
  | _ => .error (.panicked "unwrap")

/-- The `Instruction` triple produced by `serialize_instruction`. -/
structure Instruction where
  opcodes : Opcodes
  aux0 : Option Nat
  aux1 : Option Nat
deriving DecidableEq

/-- `serialize_instruction` in `interpreter/footprint.rs`: opcode plus up to
two auxiliary immediates (for `LdU256`, `aux0` is the low and `aux1` the high
128 bits of the 256-bit literal). -/
def serialize_instruction : Bytecode → Instruction
  | .FreezeRef => ⟨.FREEZE_REF, none, none⟩
  | .Pop => ⟨.POP, none, none⟩
  | .Ret => ⟨.RET, none, none⟩
  | .BrTrue off => ⟨.BR_TRUE, some off, none⟩
  | .BrFalse off => ⟨.BR_FALSE, some off, none⟩
  | .Branch off => ⟨.BRANCH, some off, none⟩
  | .LdU8 v => ⟨.LD_U8, some v, none⟩
  | .LdU64 v => ⟨.LD_U64, some v, none⟩
  | .LdU128 v => ⟨.LD_U128, some v, none⟩
  | .CastU8 => ⟨.CAST_U8, none, none⟩
  | .CastU64 => ⟨.CAST_U64, none, none⟩
  | .CastU128 => ⟨.CAST_U128, none, none⟩
  | .LdConst idx => ⟨.LD_CONST, some idx, none⟩
  | .LdTrue => ⟨.LD_TRUE, none, none⟩
  | .LdFalse => ⟨.LD_FALSE, none, none⟩
  | .CopyLoc idx => ⟨.COPY_LOC, some idx, none⟩
  | .MoveLoc idx => ⟨.MOVE_LOC, some idx, none⟩
  | .StLoc idx => ⟨.ST_LOC, some idx, none⟩
  | .MutBorrowLoc idx => ⟨.MUT_BORROW_LOC, some idx, none⟩
  | .ImmBorrowLoc idx => ⟨.IMM_BORROW_LOC, some idx, none⟩
  | .MutBorrowField idx => ⟨.MUT_BORROW_FIELD, some idx, none⟩
  | .MutBorrowFieldGeneric idx => ⟨.MUT_BORROW_FIELD_GENERIC, some idx, none⟩
  | .ImmBorrowField idx => ⟨.IMM_BORROW_FIELD, some idx, none⟩
  | .ImmBorrowFieldGeneric idx => ⟨.IMM_BORROW_FIELD_GENERIC, some idx, none⟩
  | .Call idx => ⟨.CALL, some idx, none⟩
  | .Pack idx => ⟨.PACK, some idx, none⟩
  | .Unpack idx => ⟨.UNPACK, some idx, none⟩
  | .CallGeneric idx => ⟨.CALL_GENERIC, some idx, none⟩
  | .PackGeneric idx => ⟨.PACK_GENERIC, some idx, none⟩
  | .UnpackGeneric idx => ⟨.UNPACK_GENERIC, some idx, none⟩
  | .ReadRef => ⟨.READ_REF, none, none⟩
  | .WriteRef => ⟨.WRITE_REF, none, none⟩
  | .Add => ⟨.ADD, none, none⟩
  | .Sub => ⟨.SUB, none, none⟩
  | .Mul => ⟨.MUL, none, none⟩
  | .Mod => ⟨.MOD, none, none⟩
  | .Div => ⟨.DIV, none, none⟩
  | .BitOr => ⟨.BIT_OR, none, none⟩
  | .BitAnd => ⟨.BIT_AND, none, none⟩
  | .Xor => ⟨.XOR, none, none⟩
  | .Shl => ⟨.SHL, none, none⟩
  | .Shr => ⟨.SHR, none, none⟩
  | .Or => ⟨.OR, none, none⟩
  | .And => ⟨.AND, none, none⟩
  | .Not => ⟨.NOT, none, none⟩
  | .Eq => ⟨.EQ, none, none⟩
  | .Neq => ⟨.NEQ, none, none⟩
  | .Lt => ⟨.LT, none, none⟩
  | .Gt => ⟨.GT, none, none⟩
  | .Le => ⟨.LE, none, none⟩
  | .Ge => ⟨.GE, none, none⟩
  | .Abort => ⟨.ABORT, none, none⟩
  | .Nop => ⟨.NOP, none, none⟩
  | .Exists c => ⟨.EXISTS, some c, none⟩
  | .MutBorrowGlobal c => ⟨.MUT_BORROW_GLOBAL, some c, none⟩
  | .ImmBorrowGlobal c => ⟨.IMM_BORROW_GLOBAL, some c, none⟩
  | .MoveFrom c => ⟨.MOVE_FROM, some c, none⟩
  | .MoveTo c => ⟨.MOVE_TO, some c, none⟩
  | .ExistsGeneric c => ⟨.EXISTS_GENERIC, some c, none⟩
  | .MutBorrowGlobalGeneric c => ⟨.MUT_BORROW_GLOBAL_GENERIC, some c, none⟩
  | .ImmBorrowGlobalGeneric c => ⟨.IMM_BORROW_GLOBAL_GENERIC, some c, none⟩
  | .MoveFromGeneric c => ⟨.MOVE_FROM_GENERIC, some c, none⟩
  | .MoveToGeneric c => ⟨.MOVE_TO_GENERIC, some c, none⟩
  | .VecPack si num => ⟨.VEC_PACK, some si, some num⟩
  | .VecLen si => ⟨.VEC_LEN, some si, none⟩
  | .VecImmBorrow si => ⟨.VEC_IMM_BORROW, some si, none⟩
  | .VecMutBorrow si => ⟨.VEC_MUT_BORROW, some si, none⟩
  | .VecPushBack si => ⟨.VEC_PUSH_BACK, some si, none⟩
  | .VecPopBack si => ⟨.VEC_POP_BACK, some si, none⟩
  | .VecUnpack si num => ⟨.VEC_UNPACK, some si, some num⟩
  | .VecSwap si => ⟨.VEC_SWAP, some si, none⟩
  | .LdU16 v => ⟨.LD_U16, some v, none⟩
  | .LdU32 v => ⟨.LD_U32, some v, none⟩
  | .LdU256 v => ⟨.LD_U256, some (v % 2 ^ 128), some (v / 2 ^ 128 % 2 ^ 128)⟩
  | .CastU16 => ⟨.CAST_U16, none, none⟩
  | .CastU32 => ⟨.CAST_U32, none, none⟩
  | .CastU256 => ⟨.CAST_U256, none, none⟩

/-- Assemble the `Footprint` pushed for one instruction. -/
def mkFootprint (inp : RecInput) (instr : Bytecode) (op : Operation) : Footprint :=
  { module_id := inp.module_id,
    function_id := inp.function_index,
    pc := inp.pc,
    frame_index := inp.frame_index,
    stack_pointer := inp.operand_stack.length,
    op := (serialize_instruction instr).opcodes,
    aux0 := (serialize_instruction instr).aux0,
    aux1 := (serialize_instruction instr).aux1,
    data := op }

/-- The shared body of the twelve binary integer-operation arms
(`Add`..`Ge`): snapshot both operands as `Integer` (bottom operand is `lhs`,
top is `rhs`). -/
def binArm (inp : RecInput) (ty : BinaryIntegerOperationType) : RecM Operation := do
  let vs ← last_n inp.operand_stack 2
  let ints ← vs.mapM asIntegerValue
  match ints with
  | [l, r] => return .BinaryOp ty l r
  | _ => .error (.panicked "unwrap")

/-- The read-only part of the per-instruction recorder (`footprinting` in
`interpreter/footprint.rs`): build the `Operation` payload for one
instruction from the operand stack, locals, resolver tables and the current
pointer index, without mutating anything.  `Ret`, `MoveLoc` and `StLoc` (the
three arms that mutate `FootprintState`) are handled by `footprinting`
itself; the global-resource arms reproduce the source's
`unimplemented!("unsupported instruction")` panic. -/
def buildOp (inp : RecInput) (s : FootprintState) : Bytecode → RecM Operation
  | .Pop => do
    let vs ← last_n inp.operand_stack 1
    let v ← lastOf vs
    let items ← buildPlainItems v
    return .Pop items
  | .BrTrue off => do
    let vs ← last_n inp.operand_stack 1
    let v ← lastOf vs
    let b ← asBool v
    return .BrTrue b off
  | .BrFalse off => do
    let vs ← last_n inp.operand_stack 1
    let v ← lastOf vs
    let b ← asBool v
    return .BrFalse b off
  | .Branch off => return .Branch off
  | .LdU8 v => return .LdSimple (.u8 v)
  | .LdU16 v => return .LdSimple (.u16 v)
  | .LdU32 v => return .LdSimple (.u32 v)
  | .LdU64 v => return .LdSimple (.u64 v)
  | .LdU128 v => return .LdSimple (.u128 v)
  | .LdU256 v => return .LdSimple (.u256 v)
  | .LdTrue => return .LdTrue
  | .LdFalse => return .LdFalse
  | .LdConst idx => return .LdConst idx
  | .CastU8 => do
    let vs ← last_n inp.operand_stack 1
    let v ← lastOf vs
    let i ← asIntegerValue v
    return .CastU8 i
  | .CastU16 => do
    let vs ← last_n inp.operand_stack 1
    let v ← lastOf vs
    let i ← asIntegerValue v
    return .CastU16 i
  | .CastU32 => do
    let vs ← last_n inp.operand_stack 1
    let v ← lastOf vs
    let i ← asIntegerValue v
    return .CastU32 i
  | .CastU64 => do
    let vs ← last_n inp.operand_stack 1
    let v ← lastOf vs
    let i ← asIntegerValue v
    return .CastU64 i
  | .CastU128 => do
    let vs ← last_n inp.operand_stack 1
    let v ← lastOf vs
    let i ← asIntegerValue v
    return .CastU128 i
  | .CastU256 => do
    let vs ← last_n inp.operand_stack 1
    let v ← lastOf vs
    let i ← asIntegerValue v
    return .CastU256 i
  | .CopyLoc idx => do
    let v ← copyLoc inp.locals idx
    let items ← buildItems s.reverse_local_value_addressings v
    return .CopyLoc idx items
  | .Call fh => do
    let vs ← last_n inp.operand_stack (inp.param_count fh)
    let args ← vs.mapM (buildItems s.reverse_local_value_addressings)
    return .Call fh args
  | .CallGeneric fh => do
    let vs ← last_n inp.operand_stack (inp.generic_param_count fh)
    let args ← vs.mapM (buildItems s.reverse_local_value_addressings)
    return .CallGeneric fh args
  | .Pack sd => do
    let k := inp.field_count sd
    let vs ← last_n inp.operand_stack k
    let args ← vs.mapM (buildItems s.reverse_local_value_addressings)
    return .Pack sd k args
  | .PackGeneric si => do
    let k := inp.field_instantiation_count si
    let vs ← last_n inp.operand_stack k
    let args ← vs.mapM (buildItems s.reverse_local_value_addressings)
    return .PackGeneric si k args
  | .Unpack sd => do
    let k := inp.field_count sd
    let vs ← last_n inp.operand_stack 1
    let v ← lastOf vs
    let items ← buildItems s.reverse_local_value_addressings v
    return .Unpack sd k items
  | .UnpackGeneric sd => do
    let k := inp.field_instantiation_count sd
    let vs ← last_n inp.operand_stack 1
    let v ← lastOf vs
    let items ← buildItems s.reverse_local_value_addressings v
    return .UnpackGeneric sd k items
  | .ReadRef => do
    let vs ← last_n inp.operand_stack 1
    let rv ← lastOf vs
    let reference ← buildReference s.reverse_local_value_addressings rv
    let value ← readRef inp.heap rv
    let items ← buildPlainItems value
    return .ReadRef reference items
  | .WriteRef => do
    let vs ← last_n inp.operand_stack 1
    let rv ← lastOf vs
    let reference ← buildReference s.reverse_local_value_addressings rv
    let old_value ← readRef inp.heap rv
    let vs2 ← last_n inp.operand_stack 2
    let new_value ← firstOf vs2
    let oldItems ← buildPlainItems old_value
    let newItems ← buildPlainItems new_value
    return .WriteRef reference oldItems newItems
  | .FreezeRef => return .FreezeRef
  | .MutBorrowLoc idx => return .BorrowLoc false idx
  | .ImmBorrowLoc idx => return .BorrowLoc true idx
  | .MutBorrowField fh => do
    let vs ← last_n inp.operand_stack 1
    let rv ← lastOf vs
    let addr ← asStructRef rv
    match s.reverse_local_value_addressings addr with
    | some r => return .BorrowField false fh r (inp.field_offset fh)
    | none => .error (.panicked "index by ptr ok")
  | .MutBorrowFieldGeneric fi => do
    let vs ← last_n inp.operand_stack 1
    let rv ← lastOf vs
    let addr ← asStructRef rv
    match s.reverse_local_value_addressings addr with
    | some r => return .BorrowFieldGeneric fi false r (inp.field_instantiation_offset fi)
    | none => .error (.panicked "index by ptr ok")
  | .ImmBorrowField fh => do
    let vs ← last_n inp.operand_stack 1
    let rv ← lastOf vs
    let addr ← asStructRef rv
    match s.reverse_local_value_addressings addr with
    | some r => return .BorrowField true fh r (inp.field_offset fh)
    | none => .error (.panicked "index by ptr ok")
  | .ImmBorrowFieldGeneric fi => do
    let vs ← last_n inp.operand_stack 1
    let rv ← lastOf vs
    let addr ← asStructRef rv
    match s.reverse_local_value_addressings addr with
    | some r => return .BorrowFieldGeneric fi true r (inp.field_instantiation_offset fi)
    | none => .error (.panicked "index by ptr ok")
  | .Add => binArm inp .Add
  | .Sub => binArm inp .Sub
  | .Mul => binArm inp .Mul
  | .Mod => binArm inp .Mod
  | .Div => binArm inp .Div
  | .BitOr => binArm inp .BitOr
  | .BitAnd => binArm inp .BitAnd
  | .Xor => binArm inp .Xor
  | .Lt => binArm inp .Lt
  | .Gt => binArm inp .Gt
  | .Le => binArm inp .Le
  | .Ge => binArm inp .Ge
  | .Or => do
    let vs ← last_n inp.operand_stack 2
    let bs ← vs.mapM asBool
    match bs with
    | [l, r] => return .Or l r
    | _ => .error (.panicked "unwrap")
  | .And => do
    let vs ← last_n inp.operand_stack 2
    let bs ← vs.mapM asBool
    match bs with
    | [l, r] => return .And l r
    | _ => .error (.panicked "unwrap")
  | .Not => do
    let vs ← last_n inp.operand_stack 1
    let bs ← vs.mapM asBool
    match bs with
    | [b] => return .Not b
    | _ => .error (.panicked "unwrap")
  | .Eq => do
    let vs ← last_n inp.operand_stack 2
    match vs with
    | [lv, rv] => do
      let r ← buildPlainItems rv
      let l ← buildPlainItems lv
      return .Eq l r
    | _ => .error (.panicked "unwrap")
  | .Neq => do
    let vs ← last_n inp.operand_stack 2
    match vs with
    | [lv, rv] => do
      let r ← buildPlainItems rv
      let l ← buildPlainItems lv
      return .Neq l r
    | _ => .error (.panicked "unwrap")
  | .Abort => do
    let vs ← last_n inp.operand_stack 1
    let v ← lastOf vs
    let code ← asU64 v
    return .Abort code
  | .Nop => return .Nop
  | .Shl => do
    let vs ← last_n inp.operand_stack 2
    match vs with
    | [lv, rv] => do
      let r ← asU8 rv
      let l ← asIntegerValue lv
      return .Shl r l
    | _ => .error (.panicked "unwrap")
  | .Shr => do
    let vs ← last_n inp.operand_stack 2
    match vs with
    | [lv, rv] => do
      let r ← asU8 rv
      let l ← asIntegerValue lv
      return .Shr r l
    | _ => .error (.panicked "unwrap")
  | .VecPack si num => do
    let vs ← last_n inp.operand_stack num
    let args ← vs.mapM buildPlainItems
    return .VecPack si num args
  | .VecUnpack si num => do
    let vs ← last_n inp.operand_stack 1
    let v ← lastOf vs
    let items ← buildPlainItems v
    return .VecUnpack si num items
  | .VecLen si => do
    let vs ← last_n inp.operand_stack 1
    let rv ← lastOf vs
    let reference ← buildReference s.reverse_local_value_addressings rv
    let a ← asVectorRef rv
    let elems ← vecContents inp.heap a
    return .VecLen si reference elems.length
  | .VecImmBorrow si => do
    let vs ← last_n inp.operand_stack 2
    match vs with
    | [vr, iv] => do
      let idx ← asU64 iv
      let reference ← buildReference s.reverse_local_value_addressings vr
      return .VecBorrow si true idx reference
    | _ => .error (.panicked "unwrap")
  | .VecMutBorrow si => do
    let vs ← last_n inp.operand_stack 2
    match vs with
    | [vr, iv] => do
      let idx ← asU64 iv
      let reference ← buildReference s.reverse_local_value_addressings vr
      return .VecBorrow si false idx reference
    | _ => .error (.panicked "unwrap")
  | .VecPushBack si => do
    let vs ← last_n inp.operand_stack 2
    match vs with
    | [vr, ev] => do
      let reference ← buildReference s.reverse_local_value_addressings vr
      let a ← asVectorRef vr
      let elems ← vecContents inp.heap a
      let elemItems ← buildPlainItems ev
      return .VecPushBack si elems.length reference elemItems
    | _ => .error (.panicked "unwrap")
  | .VecPopBack si => do
    let vs ← last_n inp.operand_stack 1
    let vr ← lastOf vs
    let reference ← buildReference s.reverse_local_value_addressings vr
    let a ← asVectorRef vr
    let elems ← vecContents inp.heap a
    if elems.length = 0 then
      .error (.panicked "attempt to subtract with overflow")
    else
      match elems.get? (elems.length - 1) with
      | some e => do
        let elemItems ← buildPlainItems e
        return .VecPopBack si elems.length reference elemItems
      | none => .error .vmError
  | .VecSwap si => do
    let vs ← last_n inp.operand_stack 3
    match vs with
    | [vr, i1, i2] => do
      let idx2 ← asU64 i2
      let idx1 ← asU64 i1
      let reference ← buildReference s.reverse_local_value_addressings vr
      let a ← asVectorRef vr
      let elems ← vecContents inp.heap a
      match elems.get? idx2, elems.get? idx1 with
      | some e2, some e1 => do
        let items2 ← buildPlainItems e2
        let items1 ← buildPlainItems e1
        return .VecSwap si reference elems.length idx1 idx2 items1 items2
      | _, _ => .error .vmError
    | _ => .error (.panicked "unwrap")
  | .MutBorrowGlobal _ => .error (.panicked "unsupported instruction")
  | .MutBorrowGlobalGeneric _ => .error (.panicked "unsupported instruction")
  | .Exists _ => .error (.panicked "unsupported instruction")
  | .ExistsGeneric _ => .error (.panicked "unsupported instruction")
  | .MoveFrom _ => .error (.panicked "unsupported instruction")
  | .MoveFromGeneric _ => .error (.panicked "unsupported instruction")
  | .MoveTo _ => .error (.panicked "unsupported instruction")
  | .MoveToGeneric _ => .error (.panicked "unsupported instruction")
  | .ImmBorrowGlobal _ => .error (.panicked "unsupported instruction")
  | .ImmBorrowGlobalGeneric _ => .error (.panicked "unsupported instruction")
  | .Ret => .error (.panicked "handled by footprinting")
  | .MoveLoc _ => .error (.panicked "handled by footprinting")
  | .StLoc _ => .error (.panicked "handled by footprinting")

/-- `footprinting` in `interpreter/footprint.rs`: the per-instruction
recorder.  `Ret` purges the current frame from the pointer index, `MoveLoc`
removes the consumed slot before snapshotting, and `StLoc` flattens the
stored value, replaces the slot, and snapshots the old local against the
updated reverse map; every other instruction goes through the read-only
`buildOp`.  On success exactly one `Footprint` is appended. -/
def footprinting (inp : RecInput) (instr : Bytecode) (fps : Footprints) : RecM Footprints :=
  match instr with
  | .Ret =>
    .ok { state := fps.state.remove_locals inp.frame_index,
          data := fps.data ++ [mkFootprint inp .Ret (.Ret inp.caller)] }
  | .MoveLoc idx => do
    let s' := fps.state.remove_local inp.frame_index idx
    let v ← copyLoc inp.locals idx
    let items ← buildItems s'.reverse_local_value_addressings v
    .ok { state := s', data := fps.data ++ [mkFootprint inp (.MoveLoc idx) (.MoveLoc idx items)] }
  | .StLoc idx => do
    let vs ← last_n inp.operand_stack 1
    let v ← lastOf vs
    let tv ← buildTV fps.state.reverse_local_value_addressings v
    let s' := stLocUpdate fps.state inp.frame_index idx tv.container_sub_indexes
    let inv ← isInvalid inp.locals idx
    let old_local ←
      if inv then pure (none : Option (List ValueItem))
      else do
        let ol ← copyLoc inp.locals idx
        let olItems ← buildItems s'.reverse_local_value_addressings ol
        pure (some olItems)
    .ok { state := s',
          data := fps.data ++ [mkFootprint inp (.StLoc idx) (.StLoc idx old_local tv.items)] }
  | other => do
    let op ← buildOp inp fps.state other
    .ok { state := fps.state, data := fps.data ++ [mkFootprint inp other op] }

/-- The instructions on which the recorder mutates the pointer index. -/
def mutatesIndex : Bytecode → Bool
  | .Ret => true
  | .MoveLoc _ => true
  | .StLoc _ => true
  | _ => false

/-- A minimal recorder context (empty stack and locals, empty heap, zeroed
resolver tables). -/
def emptyInput : RecInput :=
  { operand_stack := [],
    locals := [],
    heap := fun _ => none,
    pc := 0,
    frame_index := 0,
    function_index := 0,
    module_id := none,
    caller := none,
    param_count := fun _ => 0,
    generic_param_count := fun _ => 0,
    field_count := fun _ => 0,
    field_instantiation_count := fun _ => 0,
    field_offset := fun _ => 0,
    field_instantiation_offset := fun _ => 0 }

def emptyFootprints : Footprints := ⟨FootprintState.empty, []⟩

/-- Project the payloads of the recorded trace out of a recorder result
(`none` when the recorder did not succeed). -/
def recordedOps (r : RecM Footprints) : Option (List Operation) :=
  match r with
  | .ok fps => some (fps.data.map (fun f => f.data))
  | _ => none

/-- Project the reverse-map entry for one address out of a recorder result. -/
def recordedReverseAt (r : RecM Footprints) (a : Nat) : Option (Option Reference) :=
  match r with
  | .ok fps => some (fps.state.reverse_local_value_addressings a)
  | _ => none

/-- Did the recorder fail through the `PartialVMResult` error channel? -/
def isVmErrorResult (r : RecM Footprints) : Bool :=
  match r with
  | .error .vmError => true
  | _ => false

/-- The operand state of spec scenario 2 / claim C2: a two-field struct
`Struct{a: U64(7), b: U64(9)}` with container address `100` sitting on top of
the operand stack, local 0 not yet written. -/
def c2Input : RecInput :=
  { emptyInput with
    operand_stack := [.structV 100 [.u64 7, .u64 9]],
    locals := [none] }

/-- All headers of an item stream still carry their raw `U64` length (the
state the visitor leaves them in before finalization). -/
def HeadersU64 (l : List ValueItem) : Prop :=
  ∀ it ∈ l, it.header = true → ∃ n, it.value = SimpleValue.u64 n

/-- The opcode the claim expects for each instruction (the canonical opcode
of the instruction enumeration; byte values live outside `src/`). -/
def specOpcode : Bytecode → Opcodes
  | .FreezeRef => .FREEZE_REF
  | .Pop => .POP
  | .Ret => .RET
  | .BrTrue _ => .BR_TRUE
  | .BrFalse _ => .BR_FALSE
  | .Branch _ => .BRANCH
  | .LdU8 _ => .LD_U8
  | .LdU16 _ => .LD_U16
  | .LdU32 _ => .LD_U32
  | .LdU64 _ => .LD_U64
  | .LdU128 _ => .LD_U128
  | .LdU256 _ => .LD_U256
  | .CastU8 => .CAST_U8
  | .CastU16 => .CAST_U16
  | .CastU32 => .CAST_U32
  | .CastU64 => .CAST_U64
  | .CastU128 => .CAST_U128
  | .CastU256 => .CAST_U256
  | .LdConst _ => .LD_CONST
  | .LdTrue => .LD_TRUE
  | .LdFalse => .LD_FALSE
  | .CopyLoc _ => .COPY_LOC
  | .MoveLoc _ => .MOVE_LOC
  | .StLoc _ => .ST_LOC
  | .MutBorrowLoc _ => .MUT_BORROW_LOC
  | .ImmBorrowLoc _ => .IMM_BORROW_LOC
  | .MutBorrowField _ => .MUT_BORROW_FIELD
  | .MutBorrowFieldGeneric _ => .MUT_BORROW_FIELD_GENERIC
  | .ImmBorrowField _ => .IMM_BORROW_FIELD
  | .ImmBorrowFieldGeneric _ => .IMM_BORROW_FIELD_GENERIC
  | .Call _ => .CALL
  | .CallGeneric _ => .CALL_GENERIC
  | .Pack _ => .PACK
  | .PackGeneric _ => .PACK_GENERIC
  | .Unpack _ => .UNPACK
  | .UnpackGeneric _ => .UNPACK_GENERIC
  | .ReadRef => .READ_REF
  | .WriteRef => .WRITE_REF
  | .Add => .ADD
  | .Sub => .SUB
  | .Mul => .MUL
  | .Mod => .MOD
  | .Div => .DIV
  | .BitOr => .BIT_OR
  | .BitAnd => .BIT_AND
  | .Xor => .XOR
  | .Shl => .SHL
  | .Shr => .SHR
  | .Or => .OR
  | .And => .AND
  | .Not => .NOT
  | .Eq => .EQ
  | .Neq => .NEQ
  | .Lt => .LT
  | .Gt => .GT
  | .Le => .LE
  | .Ge => .GE
  | .Abort => .ABORT
  | .Nop => .NOP
  | .Exists _ => .EXISTS
  | .MutBorrowGlobal _ => .MUT_BORROW_GLOBAL
  | .ImmBorrowGlobal _ => .IMM_BORROW_GLOBAL
  | .MoveFrom _ => .MOVE_FROM
  | .MoveTo _ => .MOVE_TO
  | .ExistsGeneric _ => .EXISTS_GENERIC
  | .MutBorrowGlobalGeneric _ => .MUT_BORROW_GLOBAL_GENERIC
  | .ImmBorrowGlobalGeneric _ => .IMM_BORROW_GLOBAL_GENERIC
  | .MoveFromGeneric _ => .MOVE_FROM_GENERIC
  | .MoveToGeneric _ => .MOVE_TO_GENERIC
  | .VecPack _ _ => .VEC_PACK
  | .VecLen _ => .VEC_LEN
  | .VecImmBorrow _ => .VEC_IMM_BORROW
  | .VecMutBorrow _ => .VEC_MUT_BORROW
  | .VecPushBack _ => .VEC_PUSH_BACK
  | .VecPopBack _ => .VEC_POP_BACK
  | .VecUnpack _ _ => .VEC_UNPACK
  | .VecSwap _ => .VEC_SWAP

/-- Claim-side `aux0` classification: every offset, index or integer-literal
immediate goes into `aux0`; `VecPack`/`VecUnpack` place the signature index
here; `LdU256` the low 128 bits; instructions without a scalar immediate
leave it empty. -/
def specAux0 : Bytecode → Option Nat
  | .BrTrue off | .BrFalse off | .Branch off => some off
  | .LdU8 v | .LdU16 v | .LdU32 v | .LdU64 v | .LdU128 v => some v
  | .LdU256 v => some (v % 2 ^ 128)
  | .LdConst idx => some idx
  | .CopyLoc idx | .MoveLoc idx | .StLoc idx => some idx
  | .MutBorrowLoc idx | .ImmBorrowLoc idx => some idx
  | .MutBorrowField idx | .MutBorrowFieldGeneric idx => some idx
  | .ImmBorrowField idx | .ImmBorrowFieldGeneric idx => some idx
  | .Call idx | .CallGeneric idx => some idx
  | .Pack idx | .PackGeneric idx | .Unpack idx | .UnpackGeneric idx => some idx
  | .Exists c | .ExistsGeneric c => some c
  | .MutBorrowGlobal c | .MutBorrowGlobalGeneric c => some c
  | .ImmBorrowGlobal c | .ImmBorrowGlobalGeneric c => some c
  | .MoveFrom c | .MoveFromGeneric c | .MoveTo c | .MoveToGeneric c => some c
  | .VecPack si _ | .VecUnpack si _ => some si
  | .VecLen si | .VecImmBorrow si | .VecMutBorrow si => some si
  | .VecPushBack si | .VecPopBack si | .VecSwap si => some si
  | _ => none

/-- Claim-side `aux1`: the `VecPack`/`VecUnpack` length, or the high 128 bits
of an `LdU256` literal; empty otherwise. -/
def specAux1 : Bytecode → Option Nat
  | .VecPack _ n | .VecUnpack _ n => some n
  | .LdU256 v => some (v / 2 ^ 128 % 2 ^ 128)
  | _ => none

/-- The operand state of claim C10's witness: a reference to an empty vector
(container address 5), wired into the heap. -/
def c10Input : RecInput :=
  { emptyInput with
    operand_stack := [.refV 5],
    heap := fun a => if a = 5 then some (.vecV 5 []) else none }

def c10Fps : Footprints := ⟨FootprintState.empty.add_local 0 0 [(5, [0])], []⟩

/-- The operation sequence refuting claim C1: address 100 is installed under
slot (0,0) and then re-installed under slot (0,1) without an intervening
`remove_local(0,0)`. -/
def c1Ops : List FootprintOp :=
  [.addLocal 0 0 [(100, [1])], .addLocal 0 1 [(100, [2])]]

def c1WitnessOps : List FootprintOp := [.addLocal 0 0 [(100, [1])]]

/-- The footprints value produced by recording `Nop` on the empty context. -/
def nopRecorded : Footprints :=
  { state := emptyFootprints.state,
    data := emptyFootprints.data ++ [mkFootprint emptyInput .Nop Operation.Nop] }

theorem trim_length (l : List Nat) : (trimTrailingZeros l).length = subDepth l := by
  induction l with
  | nil => rfl
  | cons x xs ih =>
    simp only [trimTrailingZeros, subDepth]
    cases h : trimTrailingZeros xs with
    | nil =>
      rw [h] at ih
      simp only [← ih, List.length_nil]
      by_cases hx : x = 0 <;> simp [hx]
    | cons y ys =>
      rw [h] at ih
      simp only [← ih, List.length_cons]
      simp

theorem trim_replicate_zero (k : Nat) : trimTrailingZeros (List.replicate k 0) = [] := by
  induction k with
  | zero => rfl
  | succ n ih => simp [List.replicate_succ, trimTrailingZeros, ih]

theorem trim_append_replicate (l : List Nat) (k : Nat) :
    trimTrailingZeros (l ++ List.replicate k 0) = trimTrailingZeros l := by
  induction l with
  | nil => simpa using trim_replicate_zero k
  | cons x xs ih =>
    simp only [List.cons_append, trimTrailingZeros, List.append_eq]
    rw [ih]

theorem trim_decomp (l : List Nat) :
    trimTrailingZeros l ++ List.replicate (l.length - (trimTrailingZeros l).length) 0 = l := by
  induction l with
  | nil => rfl
  | cons x xs ih =>
    simp only [trimTrailingZeros]
    cases h : trimTrailingZeros xs with
    | nil =>
      rw [h] at ih
      simp only [List.nil_append, List.length_nil, Nat.sub_zero] at ih
      by_cases hx : x = 0
      · subst hx
        rw [if_pos rfl]
        simp only [List.nil_append, List.length_nil, Nat.sub_zero, List.length_cons,
          List.replicate_succ]
        rw [ih]
      · simp only [if_neg hx, List.length_cons, List.length_nil]
        simp only [List.cons_append, List.nil_append, List.cons.injEq, true_and]
        have harith : xs.length + 1 - 1 = xs.length := by omega
        rw [harith, ih]
    | cons y ys =>
      rw [h] at ih
      simp only [List.length_cons, List.cons_append, List.cons.injEq, true_and]
      have harith : xs.length + 1 - (ys.length + 1 + 1) = xs.length - (ys.length + 1) := by omega
      rw [harith]
      exact ih

theorem trim_append_of_fix (l m : List Nat) (hm : trimTrailingZeros m = m) (hne : m ≠ []) :
    trimTrailingZeros (l ++ m) = l ++ m := by
  induction l with
  | nil => simpa using hm
  | cons x xs ih =>
    simp only [List.cons_append, trimTrailingZeros, List.append_eq]
    rw [ih]
    cases hxm : xs ++ m with
    | nil =>
      exact absurd (List.append_eq_nil.mp hxm).2 hne
    | cons z zs => rfl

theorem trim_trim (l : List Nat) :
    trimTrailingZeros (trimTrailingZeros l) = trimTrailingZeros l := by
  conv_rhs => rw [← trim_decomp l]
  rw [trim_append_replicate]

/-- Claim C8, as stated, is false: when the trimmed depth of `a` plus the depth
of `b` exceeds the 8-slot capacity, `concat` truncates and the depth equation
fails.  Here `a` has depth 8 and `b` depth 1, but the concatenation still has
depth 8, not 9. -/
theorem subindex_concat_depth_overflow :
    subDepth (subConcat [1, 1, 1, 1, 1, 1, 1, 1] [1, 0, 0, 0, 0, 0, 0, 0]) ≠
      subDepth [1, 1, 1, 1, 1, 1, 1, 1] + subDepth [1, 0, 0, 0, 0, 0, 0, 0] := by
  decide

/-- Claim C8 (amended): for all 8-slot sub-indexes `a` and `b` whose combined
depth (depth of `a` after trimming trailing zeros, which equals `depth(a)`,
plus depth of `b`) fits in 8 slots, `concat(a, b)` is `a` with trailing zeros
stripped, followed by `b` with trailing zeros stripped, zero-padded to 8 slots,
and its depth is the sum of both depths. -/
theorem subindex_concat_depth (a b : List Nat) (ha : a.length = 8) (hb : b.length = 8)
    (hd : subDepth a + subDepth b ≤ 8) :
    subConcat a b =
      trimTrailingZeros a ++ trimTrailingZeros b ++
        List.replicate (8 - (subDepth a + subDepth b)) 0 ∧
    subDepth (subConcat a b) = subDepth a + subDepth b := by
  have hta : (trimTrailingZeros a).length = subDepth a := trim_length a
  have htb : (trimTrailingZeros b).length = subDepth b := trim_length b
  have hbdec : trimTrailingZeros b ++ List.replicate (8 - subDepth b) 0 = b := by
    have := trim_decomp b
    rw [htb, hb] at this
    exact this
  have hsplit : trimTrailingZeros a ++ b =
      (trimTrailingZeros a ++ trimTrailingZeros b) ++ List.replicate (8 - subDepth b) 0 := by
    rw [List.append_assoc, hbdec]
  have hXlen : (trimTrailingZeros a ++ trimTrailingZeros b).length = subDepth a + subDepth b := by
    simp [List.length_append, hta, htb]
  have htake : (trimTrailingZeros a ++ b).take 8 =
      trimTrailingZeros a ++ trimTrailingZeros b ++
        List.replicate (8 - (subDepth a + subDepth b)) 0 := by
    rw [hsplit, List.take_append_eq_append_take]
    have h1 : (trimTrailingZeros a ++ trimTrailingZeros b).take 8 =
        trimTrailingZeros a ++ trimTrailingZeros b := by
      apply List.take_of_length_le
      rw [hXlen]; exact hd
    rw [h1, hXlen, List.take_replicate]
    congr 1
    congr 1
    omega
  have hlen8 : ((trimTrailingZeros a ++ b).take 8).length = 8 := by
    rw [htake]
    simp [List.length_append, hta, htb, List.length_replicate]
    omega
  have hconcat : subConcat a b =
      trimTrailingZeros a ++ trimTrailingZeros b ++
        List.replicate (8 - (subDepth a + subDepth b)) 0 := by
    unfold subConcat MAX_SUB_INDEX_DEPTH
    rw [hlen8]
    simp only [Nat.sub_self, List.replicate_zero, List.append_nil]
    exact htake
  refine ⟨hconcat, ?_⟩
  rw [hconcat]
  rw [← trim_length]
  rw [trim_append_replicate]
  by_cases hz : trimTrailingZeros b = []
  · rw [hz, List.append_nil, trim_trim, hta]
    have : subDepth b = 0 := by rw [← htb, hz]; rfl
    omega
  · rw [trim_append_of_fix _ _ (trim_trim b) hz]
    rw [List.length_append, hta, htb]


theorem subindex_concat_depth_witness :
    subConcat [1, 2, 0, 0, 0, 0, 0, 0] [3, 0, 0, 0, 0, 0, 0, 0] =
      trimTrailingZeros [1, 2, 0, 0, 0, 0, 0, 0] ++ trimTrailingZeros [3, 0, 0, 0, 0, 0, 0, 0] ++
        List.replicate
          (8 - (subDepth [1, 2, 0, 0, 0, 0, 0, 0] + subDepth [3, 0, 0, 0, 0, 0, 0, 0])) 0 ∧
    subDepth (subConcat [1, 2, 0, 0, 0, 0, 0, 0] [3, 0, 0, 0, 0, 0, 0, 0]) =
      subDepth [1, 2, 0, 0, 0, 0, 0, 0] + subDepth [3, 0, 0, 0, 0, 0, 0, 0] :=
  subindex_concat_depth [1, 2, 0, 0, 0, 0, 0, 0] [3, 0, 0, 0, 0, 0, 0, 0]
    (by decide) (by decide) (by decide)

theorem lookupAddr_mem (m : List (Nat × List Nat)) (a : Nat) (p : List Nat)
    (h : lookupAddr m a = some p) : (a, p) ∈ m := by
  induction m with
  | nil => simp [lookupAddr] at h
  | cons kv rest ih =>
    simp only [lookupAddr] at h
    by_cases hk : kv.1 = a
    · rw [if_pos hk] at h
      cases h
      cases kv with
      | mk k v =>
        cases hk
        exact List.mem_cons_self _ _
    · rw [if_neg hk] at h
      exact List.mem_cons_of_mem _ (ih h)

theorem inv_empty : ReverseConsistent FootprintState.empty := by
  intro a
  constructor
  · intro r hr
    exact absurd hr (by simp [FootprintState.empty])
  · intro f l p hp
    exact absurd hp (by simp [FootprintState.empty])

theorem remove_local_rev_of_some (s : FootprintState) (fi li a : Nat) (r0 : Reference)
    (hrev : s.reverse_local_value_addressings a = some r0) :
    (s.remove_local fi li).reverse_local_value_addressings a =
      if r0.frame_index = fi ∧ r0.local_index = li then none else some r0 := by
  simp only [FootprintState.remove_local]
  rw [hrev]

theorem remove_local_rev_of_none (s : FootprintState) (fi li a : Nat)
    (hrev : s.reverse_local_value_addressings a = none) :
    (s.remove_local fi li).reverse_local_value_addressings a = none := by
  simp only [FootprintState.remove_local]
  rw [hrev]

theorem remove_locals_rev_of_some (s : FootprintState) (fi a : Nat) (r0 : Reference)
    (hrev : s.reverse_local_value_addressings a = some r0) :
    (s.remove_locals fi).reverse_local_value_addressings a =
      if r0.frame_index = fi then none else some r0 := by
  simp only [FootprintState.remove_locals]
  rw [hrev]

theorem remove_locals_rev_of_none (s : FootprintState) (fi a : Nat)
    (hrev : s.reverse_local_value_addressings a = none) :
    (s.remove_locals fi).reverse_local_value_addressings a = none := by
  simp only [FootprintState.remove_locals]
  rw [hrev]

theorem add_local_rev_of_some (s : FootprintState) (fi li a : Nat)
    (m : List (Nat × List Nat)) (p : List Nat) (hm : lookupAddr m a = some p) :
    (s.add_local fi li m).reverse_local_value_addressings a =
      some ⟨fi, li, toSubIndex p⟩ := by
  simp only [FootprintState.add_local]
  rw [hm]

theorem add_local_rev_of_none (s : FootprintState) (fi li a : Nat)
    (m : List (Nat × List Nat)) (hm : lookupAddr m a = none) :
    (s.add_local fi li m).reverse_local_value_addressings a =
      s.reverse_local_value_addressings a := by
  simp only [FootprintState.add_local]
  rw [hm]

theorem inv_remove_local (s : FootprintState) (fi li : Nat)
    (h : ReverseConsistent s) : ReverseConsistent (s.remove_local fi li) := by
  intro a
  constructor
  · intro r hr
    cases hrev : s.reverse_local_value_addressings a with
    | none => rw [remove_local_rev_of_none s fi li a hrev] at hr; exact absurd hr (by simp)
    | some r0 =>
      rw [remove_local_rev_of_some s fi li a r0 hrev] at hr
      by_cases hc : r0.frame_index = fi ∧ r0.local_index = li
      · rw [if_pos hc] at hr; exact absurd hr (by simp)
      · rw [if_neg hc] at hr
        cases hr
        obtain ⟨p, hp, hsub⟩ := (h a).1 _ hrev
        refine ⟨p, ?_, hsub⟩
        simp only [FootprintState.remove_local]
        rw [if_neg hc]
        exact hp
  · intro f l p hp
    simp only [FootprintState.remove_local] at hp
    by_cases hc : f = fi ∧ l = li
    · rw [if_pos hc] at hp; exact absurd hp (by simp)
    · rw [if_neg hc] at hp
      have hs := (h a).2 f l p hp
      rw [remove_local_rev_of_some s fi li a _ hs]
      have hc' : ¬((⟨f, l, toSubIndex p⟩ : Reference).frame_index = fi ∧
          (⟨f, l, toSubIndex p⟩ : Reference).local_index = li) := hc
      rw [if_neg hc']

theorem inv_remove_locals (s : FootprintState) (fi : Nat)
    (h : ReverseConsistent s) : ReverseConsistent (s.remove_locals fi) := by
  intro a
  constructor
  · intro r hr
    cases hrev : s.reverse_local_value_addressings a with
    | none => rw [remove_locals_rev_of_none s fi a hrev] at hr; exact absurd hr (by simp)
    | some r0 =>
      rw [remove_locals_rev_of_some s fi a r0 hrev] at hr
      by_cases hc : r0.frame_index = fi
      · rw [if_pos hc] at hr; exact absurd hr (by simp)
      · rw [if_neg hc] at hr
        cases hr
        obtain ⟨p, hp, hsub⟩ := (h a).1 _ hrev
        refine ⟨p, ?_, hsub⟩
        simp only [FootprintState.remove_locals]
        rw [if_neg hc]
        exact hp
  · intro f l p hp
    simp only [FootprintState.remove_locals] at hp
    by_cases hc : f = fi
    · rw [if_pos hc] at hp; exact absurd hp (by simp)
    · rw [if_neg hc] at hp
      have hs := (h a).2 f l p hp
      rw [remove_locals_rev_of_some s fi a _ hs]
      have hc' : ¬((⟨f, l, toSubIndex p⟩ : Reference).frame_index = fi) := hc
      rw [if_neg hc']

theorem inv_add_local (s : FootprintState) (fi li : Nat) (m : List (Nat × List Nat))
    (h : ReverseConsistent s) (hok : AddLocalOk s fi li m) :
    ReverseConsistent (s.add_local fi li m) := by
  intro a
  constructor
  · intro r hr
    cases hm : lookupAddr m a with
    | some p =>
      rw [add_local_rev_of_some s fi li a m p hm] at hr
      cases hr
      refine ⟨p, ?_, rfl⟩
      show (s.add_local fi li m).local_value_addressings fi li a = some p
      simp [FootprintState.add_local, hm]
    | none =>
      rw [add_local_rev_of_none s fi li a m hm] at hr
      obtain ⟨p, hp, hsub⟩ := (h a).1 r hr
      refine ⟨p, ?_, hsub⟩
      simp only [FootprintState.add_local]
      by_cases hc : r.frame_index = fi ∧ r.local_index = li
      · exfalso
        have h1 := hok.1 a
        rw [← hc.1, ← hc.2] at h1
        rw [h1] at hp
        exact absurd hp (by simp)
      · rw [if_neg hc]
        exact hp
  · intro f l p hp
    simp only [FootprintState.add_local] at hp
    by_cases hc : f = fi ∧ l = li
    · rw [if_pos hc] at hp
      rw [hc.1, hc.2]
      exact add_local_rev_of_some s fi li a m p hp
    · rw [if_neg hc] at hp
      cases hm : lookupAddr m a with
      | some q =>
        exfalso
        have := hok.2 (a, q) (lookupAddr_mem m a q hm) f l
        rw [this] at hp
        exact absurd hp (by simp)
      | none =>
        rw [add_local_rev_of_none s fi li a m hm]
        exact (h a).2 f l p hp

theorem inv_applyOps (ops : List FootprintOp) :
    ∀ s, ReverseConsistent s → GoodFrom s ops → ReverseConsistent (applyOps s ops) := by
  induction ops with
  | nil => intro s h _; exact h
  | cons op ops ih =>
    intro s h hg
    obtain ⟨hop, hrest⟩ := hg
    refine ih (applyOp s op) ?_ hrest
    cases op with
    | addLocal f l m => exact inv_add_local s f l m h hop
    | removeLocal f l => exact inv_remove_local s f l h
    | removeLocals f => exact inv_remove_locals s f h

theorem finalizeItem_sub_index (items : List ValueItem) (it : ValueItem) :
    (finalizeItem items it).sub_index = it.sub_index := by
  rcases it with ⟨si, hd, v⟩
  cases hd <;> cases v <;> rfl

theorem finalizeItem_header (items : List ValueItem) (it : ValueItem) :
    (finalizeItem items it).header = it.header := by
  rcases it with ⟨si, hd, v⟩
  cases hd <;> cases v <;> rfl

theorem specSubtreeCount_eq (items : List ValueItem) (h : List Nat) :
    specSubtreeCount items h = subtreeCount items h := by
  unfold specSubtreeCount subtreeCount
  split
  · rfl
  · rw [List.countP_eq_length_filter]

theorem subtreeCount_finalize (items : List ValueItem) (h : List Nat) :
    subtreeCount (finalize items) h = subtreeCount items h := by
  unfold subtreeCount finalize
  split
  · rw [List.length_map]
  · rw [List.countP_map]
    apply List.countP_congr
    intro it _
    simp only [Function.comp]
    rw [finalizeItem_sub_index]

theorem headers_append (l : List ValueItem) (x : ValueItem)
    (hh : HeadersU64 l) (hx : x.header = true → ∃ n, x.value = SimpleValue.u64 n) :
    HeadersU64 (l ++ [x]) := by
  intro it hit hhd
  rcases List.mem_append.mp hit with h1 | h2
  · exact hh it h1 hhd
  · rcases List.mem_singleton.mp h2 with rfl
    exact hx hhd

theorem visitSimple_items (acc acc' : TracedAcc) (depth : Nat) (v : SimpleValue)
    (h : visitSimple acc depth v = some acc') :
    ∃ si, acc'.items = acc.items ++ [⟨si, false, v⟩] := by
  unfold visitSimple at h
  split at h
  · split at h
    · cases h; exact ⟨_, rfl⟩
    · exact absurd h (by simp)
  · split at h
    · cases h; exact ⟨_, rfl⟩
    · exact absurd h (by simp)

theorem enterContainer_items (acc acc' : TracedAcc) (addr depth len : Nat)
    (h : enterContainer acc addr depth len = some acc') :
    ∃ si, acc'.items = acc.items ++ [⟨si, true, SimpleValue.u64 len⟩] := by
  unfold enterContainer at h
  split at h
  · split at h
    · cases h; exact ⟨_, rfl⟩
    · exact absurd h (by simp)
  · split at h
    · cases h; exact ⟨_, rfl⟩
    · exact absurd h (by simp)

theorem visitSimple_headers (acc acc' : TracedAcc) (depth : Nat) (v : SimpleValue)
    (h : visitSimple acc depth v = some acc') (hh : HeadersU64 acc.items) :
    HeadersU64 acc'.items := by
  obtain ⟨si, hitems⟩ := visitSimple_items acc acc' depth v h
  rw [hitems]
  exact headers_append _ _ hh (fun hco => by simp at hco)

theorem enterContainer_headers (acc acc' : TracedAcc) (addr depth len : Nat)
    (h : enterContainer acc addr depth len = some acc') (hh : HeadersU64 acc.items) :
    HeadersU64 acc'.items := by
  obtain ⟨si, hitems⟩ := enterContainer_items acc acc' addr depth len h
  rw [hitems]
  exact headers_append _ _ hh (fun _ => ⟨len, rfl⟩)

theorem visitWorkF_headers (rev : Nat → Option Reference) :
    ∀ (fuel : Nat) (wl : List (RValue × Nat)) (acc acc' : TracedAcc),
      visitWorkF rev fuel wl acc = some acc' → HeadersU64 acc.items →
        HeadersU64 acc'.items := by
  intro fuel
  induction fuel with
  | zero =>
    intro wl acc acc' h hh
    cases wl with
    | nil => simp only [visitWorkF] at h; cases h; exact hh
    | cons p rest => simp only [visitWorkF] at h; exact absurd h (by simp)
  | succ fuel ih =>
    intro wl acc acc' h hh
    cases wl with
    | nil => simp only [visitWorkF] at h; cases h; exact hh
    | cons p rest =>
      obtain ⟨v, depth⟩ := p
      cases v with
      | u8 n =>
        simp only [visitWorkF] at h
        cases hs : visitSimple acc depth (.u8 n) with
        | none => rw [hs] at h; simp at h
        | some acc1 =>
          rw [hs] at h
          exact ih rest acc1 acc' h (visitSimple_headers acc acc1 depth _ hs hh)
      | u16 n =>
        simp only [visitWorkF] at h
        cases hs : visitSimple acc depth (.u16 n) with
        | none => rw [hs] at h; simp at h
        | some acc1 =>
          rw [hs] at h
          exact ih rest acc1 acc' h (visitSimple_headers acc acc1 depth _ hs hh)
      | u32 n =>
        simp only [visitWorkF] at h
        cases hs : visitSimple acc depth (.u32 n) with
        | none => rw [hs] at h; simp at h
        | some acc1 =>
          rw [hs] at h
          exact ih rest acc1 acc' h (visitSimple_headers acc acc1 depth _ hs hh)
      | u64 n =>
        simp only [visitWorkF] at h
        cases hs : visitSimple acc depth (.u64 n) with
        | none => rw [hs] at h; simp at h
        | some acc1 =>
          rw [hs] at h
          exact ih rest acc1 acc' h (visitSimple_headers acc acc1 depth _ hs hh)
      | u128 n =>
        simp only [visitWorkF] at h
        cases hs : visitSimple acc depth (.u128 n) with
        | none => rw [hs] at h; simp at h
        | some acc1 =>
          rw [hs] at h
          exact ih rest acc1 acc' h (visitSimple_headers acc acc1 depth _ hs hh)
      | u256 n =>
        simp only [visitWorkF] at h
        cases hs : visitSimple acc depth (.u256 n) with
        | none => rw [hs] at h; simp at h
        | some acc1 =>
          rw [hs] at h
          exact ih rest acc1 acc' h (visitSimple_headers acc acc1 depth _ hs hh)
      | boolean b =>
        simp only [visitWorkF] at h
        cases hs : visitSimple acc depth (.boolean b) with
        | none => rw [hs] at h; simp at h
        | some acc1 =>
          rw [hs] at h
          exact ih rest acc1 acc' h (visitSimple_headers acc acc1 depth _ hs hh)
      | address a =>
        simp only [visitWorkF] at h
        cases hs : visitSimple acc depth (.address a) with
        | none => rw [hs] at h; simp at h
        | some acc1 =>
          rw [hs] at h
          exact ih rest acc1 acc' h (visitSimple_headers acc acc1 depth _ hs hh)
      | structV a fields =>
        simp only [visitWorkF] at h
        cases hs : enterContainer acc a depth fields.length with
        | none => rw [hs] at h; simp at h
        | some acc1 =>
          rw [hs] at h
          exact ih _ acc1 acc' h (enterContainer_headers acc acc1 a depth _ hs hh)
      | vecV a elems =>
        simp only [visitWorkF] at h
        cases hs : enterContainer acc a depth elems.length with
        | none => rw [hs] at h; simp at h
        | some acc1 =>
          rw [hs] at h
          exact ih _ acc1 acc' h (enterContainer_headers acc acc1 a depth _ hs hh)
      | refV a =>
        simp only [visitWorkF] at h
        split at h
        · cases hs : visitSimple acc depth (.reference _) with
          | none => rw [hs] at h; simp at h
          | some acc1 =>
            rw [hs] at h
            exact ih rest acc1 acc' h (visitSimple_headers acc acc1 depth _ hs hh)
        · exact absurd h (by simp)
      | refIndexed a i =>
        simp only [visitWorkF] at h
        exact absurd h (by simp)

/-- Read-only recording helper lemma: a successful pass through the
`buildOp`-routed branch of `footprinting` keeps the pointer index and appends
one record. -/
theorem footstep_ok (inp : RecInput) (instr : Bytecode) (fps fps' : Footprints)
    (h : (do
        let op ← buildOp inp fps.state instr
        Except.ok { state := fps.state,
                    data := fps.data ++ [mkFootprint inp instr op] }) = Except.ok fps') :
    fps'.state = fps.state ∧ ∃ r, fps'.data = fps.data ++ [r] := by
  cases hop : buildOp inp fps.state instr with
  | error e =>
    rw [hop] at h
    have h2 : (Except.error e : RecM Footprints) = Except.ok fps' := h
    exact Except.noConfusion h2
  | ok op =>
    rw [hop] at h
    have h2 : Except.ok ({ state := fps.state,
                           data := fps.data ++ [mkFootprint inp instr op] } : Footprints) =
        Except.ok fps' := h
    cases h2
    exact ⟨rfl, ⟨_, rfl⟩⟩

theorem recm_bind_ok {α β : Type} (a : α) (f : α → RecM β) :
    (Except.ok a : RecM α) >>= f = f a := rfl

theorem recm_bind_err {α β : Type} (e : RErr) (f : α → RecM β) :
    (Except.error e : RecM α) >>= f = Except.error e := rfl

theorem lastOf_single (v : RValue) : lastOf [v] = .ok v := rfl

/-- Claim C1, as stated, is false: starting from the empty `FootprintState`,
`add_local(0,0,{100 ↦ [1]})` followed by `add_local(0,1,{100 ↦ [2]})` leaves
the forward entry `local_value_addressings[0][0][100] = [1]` in place while
the reverse map now reports `100 ↦ Reference(0,1,[2])`, so the biconditional
`reverse[a] = (f,l,p) iff local_value_addressings[f][l][a] = p` fails at
`a = 100, f = 0, l = 0, p = [1]`. -/
theorem reverse_consistency_counterexample :
    ¬ ((applyOps FootprintState.empty c1Ops).reverse_local_value_addressings 100 =
          some ⟨0, 0, toSubIndex [1]⟩ ↔
        (applyOps FootprintState.empty c1Ops).local_value_addressings 0 0 100 = some [1]) := by
  decide

/-- Claim C1 (amended): reverse-consistency of the pointer index holds after
any sequence of `add_local`/`remove_local`/`remove_locals` operations from
the empty state in which every `add_local(f,l,m)` is applied to a state whose
slot `(f,l)` is empty and none of whose addresses in `m` is currently present
in the forward map (the situation the recorder guarantees: `add_local` is
only called right after `remove_local` of the same slot, on the container
addresses of a freshly flattened value): for every address `a`,
`reverse[a] = Reference(f,l,p)` holds exactly when
`local_value_addressings[f][l][a]` holds the path `p`. -/
theorem reverse_consistency_guarded (ops : List FootprintOp)
    (hg : GoodFrom FootprintState.empty ops) :
    ReverseConsistent (applyOps FootprintState.empty ops) :=
  inv_applyOps ops FootprintState.empty inv_empty hg

theorem reverse_consistency_guarded_witness :
    ∃ p, (applyOps FootprintState.empty c1WitnessOps).local_value_addressings 0 0 100 = some p ∧
      (⟨0, 0, toSubIndex [1]⟩ : Reference).sub_index = toSubIndex p :=
  ((reverse_consistency_guarded c1WitnessOps
      ⟨⟨fun _ => rfl, fun _ _ _ _ => rfl⟩, trivial⟩) 100).1
    ⟨0, 0, toSubIndex [1]⟩ (by decide)

/-- Claim C2, as stated, is false: recording `StLoc(0)` at frame 0 with
`Struct{a: U64(7), b: U64(9)}` (container address 100) on top of the stack
emits leaf items at sub-indexes `[1]` and `[2]` (the flattener's 1-based
sibling counters), not at `[0,0]` and `[0,1]` as the claim lists them. -/
theorem stloc_struct_store_counterexample :
    recordedOps (footprinting c2Input (.StLoc 0) emptyFootprints) =
        some [Operation.StLoc 0 none
          [⟨toSubIndex [0], true, .u256 (2 * 2 ^ 128 + 3)⟩,
           ⟨toSubIndex [1], false, .u64 7⟩,
           ⟨toSubIndex [2], false, .u64 9⟩]] ∧
      recordedOps (footprinting c2Input (.StLoc 0) emptyFootprints) ≠
        some [Operation.StLoc 0 none
          [⟨toSubIndex [0], true, .u256 (2 * 2 ^ 128 + 3)⟩,
           ⟨toSubIndex [0, 0], false, .u64 7⟩,
           ⟨toSubIndex [0, 1], false, .u64 9⟩]] := by
  decide

/-- Claim C2 (amended): flattening the two-field struct stored by `StLoc(0)`
at frame 0 produces exactly the `new_value` items
`[{[0], header, U256(2·2^128+3)}, {[1], U64(7)}, {[2], U64(9)}]` — the header
at the root placeholder and the two leaves at the 1-based sibling counters —
and leaves the reverse map equal to `{100 ↦ Reference(0, 0, [])}` (the
all-zero sub-index, i.e. the empty trimmed path). -/
theorem stloc_struct_store_scenario :
    recordedOps (footprinting c2Input (.StLoc 0) emptyFootprints) =
        some [Operation.StLoc 0 none
          [⟨toSubIndex [0], true, .u256 (2 * 2 ^ 128 + 3)⟩,
           ⟨toSubIndex [1], false, .u64 7⟩,
           ⟨toSubIndex [2], false, .u64 9⟩]] ∧
      recordedReverseAt (footprinting c2Input (.StLoc 0) emptyFootprints) 100 =
        some (some ⟨0, 0, toSubIndex [0]⟩) ∧
      trimTrailingZeros (toSubIndex [0]) = [] := by
  decide

/-- Claim C3: after flattening any runtime value, every header item's value
is `U256((declared_len << 128) | subtree_item_count)`: the visitor emits every
header as `U64(declared_len)` (the aggregate's declared length), and
finalization rewrites precisely that header, position by position, to the
`U256` packing whose high 128 bits are the declared length and whose low 128
bits are the number of items whose trimmed sub-index has the header's trimmed
sub-index as a strict prefix (the total item count for the root placeholder);
in particular no header is left as `U64(len)`. -/
theorem header_finalization (rev : Nat → Option Reference) (v : RValue) (tv : TracedValue)
    (h : flattenValue rev v = some tv) :
    ∃ acc : TracedAcc,
      visitWorkF rev (rvFuel v + 1) [(v, 0)] emptyAcc = some acc ∧
      tv.items = finalize acc.items ∧
      HeadersU64 acc.items ∧
      (∀ (i : Nat) (it : ValueItem), tv.items.get? i = some it → it.header = true →
        ∃ si n, acc.items.get? i = some ⟨si, true, SimpleValue.u64 n⟩ ∧
          it = ⟨si, true,
            SimpleValue.u256 (n * 2 ^ 128 + specSubtreeCount tv.items si)⟩) := by
  unfold flattenValue at h
  cases hw : visitWorkF rev (rvFuel v + 1) [(v, 0)] emptyAcc with
  | none => rw [hw] at h; exact absurd h (by simp)
  | some acc =>
    rw [hw] at h
    have h2 : (if acc.visit_stack.isEmpty then
        some (⟨finalize acc.items, acc.container_sub_indexes⟩ : TracedValue) else none) =
        some tv := h
    split at h2
    · cases h2
      have hhu : HeadersU64 acc.items :=
        visitWorkF_headers rev _ _ _ _ hw (fun it hit _ => absurd hit (List.not_mem_nil it))
      refine ⟨acc, rfl, rfl, hhu, ?_⟩
      intro i it hget hhd
      have hmap : (finalize acc.items).get? i =
          (acc.items.get? i).map (finalizeItem acc.items) := by
        simp [finalize]
      replace hget : (finalize acc.items).get? i = some it := hget
      rw [hmap] at hget
      cases hpre : acc.items.get? i with
      | none => rw [hpre] at hget; exact absurd hget (by simp)
      | some pre =>
        rw [hpre] at hget
        have hit : finalizeItem acc.items pre = it := Option.some.inj hget
        have hhd0 : pre.header = true := by
          rw [← finalizeItem_header acc.items pre, hit]
          exact hhd
        obtain ⟨n, hval⟩ := hhu pre (List.get?_mem hpre) hhd0
        rcases pre with ⟨si0, hd0, v0⟩
        simp only at hhd0 hval
        subst hhd0
        subst hval
        refine ⟨si0, n, rfl, ?_⟩
        rw [← hit]
        show finalizeItem acc.items ⟨si0, true, SimpleValue.u64 n⟩ =
          ⟨si0, true,
            SimpleValue.u256 (n * 2 ^ 128 + specSubtreeCount (finalize acc.items) si0)⟩
        rw [specSubtreeCount_eq, subtreeCount_finalize]
        rfl
    · exact absurd h2 (by simp)

theorem header_finalization_witness :
    ∃ acc : TracedAcc,
      visitWorkF (fun _ => none) (rvFuel (.structV 1 [.u64 7, .u64 9]) + 1)
          [(.structV 1 [.u64 7, .u64 9], 0)] emptyAcc = some acc ∧
      (⟨[⟨toSubIndex [0], true, .u256 (2 * 2 ^ 128 + 3)⟩,
         ⟨toSubIndex [1], false, .u64 7⟩,
         ⟨toSubIndex [2], false, .u64 9⟩], [(1, [0])]⟩ : TracedValue).items =
        finalize acc.items ∧
      HeadersU64 acc.items ∧
      (∀ (i : Nat) (it : ValueItem),
        (⟨[⟨toSubIndex [0], true, .u256 (2 * 2 ^ 128 + 3)⟩,
           ⟨toSubIndex [1], false, .u64 7⟩,
           ⟨toSubIndex [2], false, .u64 9⟩], [(1, [0])]⟩ : TracedValue).items.get? i =
            some it → it.header = true →
        ∃ si n, acc.items.get? i = some ⟨si, true, SimpleValue.u64 n⟩ ∧
          it = ⟨si, true, SimpleValue.u256 (n * 2 ^ 128 +
            specSubtreeCount
              (⟨[⟨toSubIndex [0], true, .u256 (2 * 2 ^ 128 + 3)⟩,
                 ⟨toSubIndex [1], false, .u64 7⟩,
                 ⟨toSubIndex [2], false, .u64 9⟩], [(1, [0])]⟩ : TracedValue).items si)⟩) :=
  header_finalization (fun _ => none) (.structV 1 [.u64 7, .u64 9])
    ⟨[⟨toSubIndex [0], true, .u256 (2 * 2 ^ 128 + 3)⟩,
      ⟨toSubIndex [1], false, .u64 7⟩,
      ⟨toSubIndex [2], false, .u64 9⟩], [(1, [0])]⟩
    (by decide)

/-- Claim C4: the recorder's `StLoc` state update — `remove_local(f,i)`
followed by `add_local(f,i,m)` with `m` the container-address map of the
flattened stored value — leaves `local_value_addressings[f][i]` equal to
exactly `m`, and every reverse entry `Reference(f,i,p)` that remains stems
from `m` (no entry derived from the slot's prior value survives). -/
theorem stloc_atomicity (s : FootprintState) (f i : Nat) (m : List (Nat × List Nat)) :
    (∀ a, (stLocUpdate s f i m).local_value_addressings f i a = lookupAddr m a) ∧
    (∀ a p, (stLocUpdate s f i m).reverse_local_value_addressings a = some ⟨f, i, p⟩ →
      ∃ q, lookupAddr m a = some q ∧ p = toSubIndex q) := by
  constructor
  · intro a
    simp [stLocUpdate, FootprintState.add_local]
  · intro a p hp
    cases hm : lookupAddr m a with
    | some q =>
      rw [show stLocUpdate s f i m = (s.remove_local f i).add_local f i m from rfl] at hp
      rw [add_local_rev_of_some _ f i a m q hm] at hp
      exact ⟨q, rfl, (congrArg Reference.sub_index (Option.some.inj hp)).symm⟩
    | none =>
      rw [show stLocUpdate s f i m = (s.remove_local f i).add_local f i m from rfl] at hp
      rw [add_local_rev_of_none _ f i a m hm] at hp
      exfalso
      cases hrev : s.reverse_local_value_addressings a with
      | none =>
        rw [remove_local_rev_of_none s f i a hrev] at hp
        exact Option.noConfusion hp
      | some r0 =>
        rw [remove_local_rev_of_some s f i a r0 hrev] at hp
        by_cases hc : r0.frame_index = f ∧ r0.local_index = i
        · rw [if_pos hc] at hp
          exact Option.noConfusion hp
        · rw [if_neg hc] at hp
          cases hp
          exact hc ⟨rfl, rfl⟩

theorem stloc_atomicity_witness :
    ∃ q, lookupAddr [(7, [1])] 7 = some q ∧ toSubIndex [1] = toSubIndex q :=
  (stloc_atomicity FootprintState.empty 0 0 [(7, [1])]).2 7 (toSubIndex [1]) (by decide)

/-- Claim C5: after `remove_locals(f)` no entry of either map references
frame `f` — the forward map holds nothing under `f` and every surviving
reverse entry has `frame_index ≠ f` — and the recorder's `Ret` arm leaves the
pointer index exactly at `remove_locals(frame_index)` of the prior state. -/
theorem frame_cleanliness :
    (∀ (s : FootprintState) (f l a : Nat),
      (s.remove_locals f).local_value_addressings f l a = none) ∧
    (∀ (s : FootprintState) (f a : Nat) (r : Reference),
      (s.remove_locals f).reverse_local_value_addressings a = some r → r.frame_index ≠ f) ∧
    (∀ (inp : RecInput) (fps fps' : Footprints),
      footprinting inp .Ret fps = .ok fps' →
        fps'.state = fps.state.remove_locals inp.frame_index) := by
  refine ⟨?_, ?_, ?_⟩
  · intro s f l a
    simp [FootprintState.remove_locals]
  · intro s f a r h
    cases hrev : s.reverse_local_value_addressings a with
    | none =>
      rw [remove_locals_rev_of_none s f a hrev] at h
      exact Option.noConfusion h
    | some r0 =>
      rw [remove_locals_rev_of_some s f a r0 hrev] at h
      by_cases hc : r0.frame_index = f
      · rw [if_pos hc] at h
        exact Option.noConfusion h
      · rw [if_neg hc] at h
        cases h
        exact hc
  · intro inp fps fps' h
    have h2 : Except.ok ({ state := fps.state.remove_locals inp.frame_index,
                           data := fps.data ++ [mkFootprint inp .Ret (.Ret inp.caller)] } :
        Footprints) = Except.ok fps' := h
    cases h2
    rfl

theorem frame_cleanliness_witness :
    (⟨0, 0, toSubIndex [0]⟩ : Reference).frame_index ≠ 3 :=
  frame_cleanliness.2.1 (FootprintState.empty.add_local 0 0 [(5, [0])]) 3 5
    ⟨0, 0, toSubIndex [0]⟩ (by decide)

/-- Claim C6, as stated, is false in one respect: the recorder does fail the
execution on a global-resource instruction and appends no record, but the
failure is a Rust panic (`unimplemented!("unsupported instruction")`), not an
error surfaced through the recorder's `Result` error channel. -/
theorem unsupported_global_counterexample :
    footprinting emptyInput (.MoveTo 0) emptyFootprints =
        .error (.panicked "unsupported instruction") ∧
      isVmErrorResult (footprinting emptyInput (.MoveTo 0) emptyFootprints) = false ∧
      recordedOps (footprinting emptyInput (.MoveTo 0) emptyFootprints) = none :=
  ⟨rfl, rfl, rfl⟩

/-- Claim C6 (amended): for every global-resource instruction (`MoveTo`,
`MoveFrom`, `Exists`, the `BorrowGlobal` family and their generic variants)
the recorder fails the execution fatally with the explicit panic
"unsupported instruction" (not an `Err` through its `Result` channel) and
appends no `Footprint` record. -/
theorem unsupported_global_panics (inp : RecInput) (fps : Footprints) (c : Nat) :
    footprinting inp (.MutBorrowGlobal c) fps = .error (.panicked "unsupported instruction") ∧
    footprinting inp (.MutBorrowGlobalGeneric c) fps =
      .error (.panicked "unsupported instruction") ∧
    footprinting inp (.Exists c) fps = .error (.panicked "unsupported instruction") ∧
    footprinting inp (.ExistsGeneric c) fps = .error (.panicked "unsupported instruction") ∧
    footprinting inp (.MoveFrom c) fps = .error (.panicked "unsupported instruction") ∧
    footprinting inp (.MoveFromGeneric c) fps = .error (.panicked "unsupported instruction") ∧
    footprinting inp (.MoveTo c) fps = .error (.panicked "unsupported instruction") ∧
    footprinting inp (.MoveToGeneric c) fps = .error (.panicked "unsupported instruction") ∧
    footprinting inp (.ImmBorrowGlobal c) fps = .error (.panicked "unsupported instruction") ∧
    footprinting inp (.ImmBorrowGlobalGeneric c) fps =
      .error (.panicked "unsupported instruction") :=
  ⟨rfl, rfl, rfl, rfl, rfl, rfl, rfl, rfl, rfl, rfl⟩

/-- Claim C7: the encoder yields the canonical opcode for every instruction,
places every offset/index/integer-literal immediate in `aux0` (and `none` in
both slots when there is no scalar immediate), puts the `VecPack`/`VecUnpack`
length in `aux1`, and splits an `LdU256` literal into low 128 bits (`aux0`)
and high 128 bits (`aux1`). -/
theorem serialize_instruction_spec (i : Bytecode) :
    (serialize_instruction i).opcodes = specOpcode i ∧
    (serialize_instruction i).aux0 = specAux0 i ∧
    (serialize_instruction i).aux1 = specAux1 i := by
  cases i <;> exact ⟨rfl, rfl, rfl⟩

/-- Claim C9: for every instruction other than `StLoc`, `MoveLoc` and `Ret`,
a successful pass of the recorder leaves both maps of `FootprintState`
unchanged and appends exactly one `Footprint` record to the trace. -/
theorem footprint_frame_effect (inp : RecInput) (instr : Bytecode) (fps fps' : Footprints)
    (hm : mutatesIndex instr = false)
    (h : footprinting inp instr fps = .ok fps') :
    fps'.state = fps.state ∧ ∃ r, fps'.data = fps.data ++ [r] := by
  cases instr <;>
    first
      | exact footstep_ok inp _ fps fps' h
      | simp [mutatesIndex] at hm

theorem footprint_frame_effect_witness :
    nopRecorded.state = emptyFootprints.state ∧
      ∃ r, nopRecorded.data = emptyFootprints.data ++ [r] :=
  footprint_frame_effect emptyInput .Nop emptyFootprints nopRecorded rfl rfl

/-- Claim C10: recording `VecPopBack` borrows index `vec_len - 1` on a `u64`
without an emptiness check, so the recording aborts with an arithmetic
underflow exactly when the referenced vector is empty (`vec_len = 0`); with
`vec_len ≥ 1` the subtraction and the element borrow are well-defined. -/
theorem vecpopback_requires_nonempty (inp : RecInput) (fps : Footprints) (si a : Nat)
    (rest : List RValue) (elems : List RValue) (r : Reference)
    (hstack : inp.operand_stack = .refV a :: rest)
    (hheap : inp.heap a = some (.vecV a elems))
    (hrev : fps.state.reverse_local_value_addressings a = some r) :
    footprinting inp (.VecPopBack si) fps =
        .error (.panicked "attempt to subtract with overflow") ↔ elems = [] := by
  have hfoot : footprinting inp (.VecPopBack si) fps =
      (buildOp inp fps.state (.VecPopBack si)) >>= (fun op =>
        Except.ok { state := fps.state,
                    data := fps.data ++ [mkFootprint inp (.VecPopBack si) op] }) := rfl
  have h1 : last_n inp.operand_stack 1 = .ok [RValue.refV a] := by
    rw [hstack]
    simp [last_n]
  have h2 : buildReference fps.state.reverse_local_value_addressings (RValue.refV a) =
      .ok r := by
    simp only [buildReference]
    rw [hrev]
  have h3 : vecContents inp.heap a = .ok elems := by
    simp only [vecContents]
    rw [hheap]
  rcases elems with _ | ⟨e0, erest⟩
  · constructor
    · intro _
      rfl
    · intro _
      rw [hfoot]
      simp only [buildOp, h1, h2, h3, recm_bind_ok, recm_bind_err, lastOf_single, asVectorRef]
      rfl
  · constructor
    · intro h
      exfalso
      rw [hfoot] at h
      simp only [buildOp, h1, h2, h3, recm_bind_ok, recm_bind_err, lastOf_single,
        asVectorRef] at h
      rw [if_neg (by simp)] at h
      cases hg : (e0 :: erest).get? ((e0 :: erest).length - 1) with
      | none =>
        rw [hg] at h
        replace h : (Except.error RErr.vmError : RecM Operation) >>= (fun op =>
            (Except.ok ({ state := fps.state,
                          data := fps.data ++ [mkFootprint inp (.VecPopBack si) op] } :
              Footprints) : RecM Footprints)) =
            Except.error (RErr.panicked "attempt to subtract with overflow") := h
        simp only [recm_bind_err] at h
        exact RErr.noConfusion (Except.error.inj h)
      | some e =>
        rw [hg] at h
        replace h : ((buildPlainItems e) >>= fun elemItems =>
            (pure (Operation.VecPopBack si (e0 :: erest).length r elemItems) :
              RecM Operation)) >>= (fun op =>
            (Except.ok ({ state := fps.state,
                          data := fps.data ++ [mkFootprint inp (.VecPopBack si) op] } :
              Footprints) : RecM Footprints)) =
            Except.error (RErr.panicked "attempt to subtract with overflow") := h
        cases hb : buildPlainItems e with
        | error er =>
          rw [hb] at h
          simp only [recm_bind_err] at h
          unfold buildPlainItems at hb
          cases hf : flattenValue (fun _ => none) e with
          | some tv =>
            rw [hf] at hb
            exact Except.noConfusion hb
          | none =>
            rw [hf] at hb
            cases hb
            exact absurd (RErr.panicked.inj (Except.error.inj h)) (by decide)
        | ok items =>
          rw [hb] at h
          simp only [recm_bind_ok] at h
          exact Except.noConfusion h
    · intro h
      exact absurd h (by simp)

theorem vecpopback_requires_nonempty_witness :
    footprinting c10Input (.VecPopBack 0) c10Fps =
      .error (.panicked "attempt to subtract with overflow") :=
  (vecpopback_requires_nonempty c10Input c10Fps 0 5 [] [] ⟨0, 0, toSubIndex [0]⟩
    rfl rfl (by decide)).mpr rfl

end Witnessing
